import Mathlib

/-!
Shallow embedding of the Tran-API-1 document-conversion core
(unified document model, extractors, converters, orchestrator)
and proofs of the specified properties.

Modelling conventions:
* Python `str` is modelled by Lean `String` (a sequence of Unicode code
  points, matching Python's string model).
* Python `None` / optional values are modelled by `Option`.
* Unicode NFKC normalisation inside `clean_text` is modelled as the
  identity map; every concrete input used in the development is in the
  ASCII range, on which NFKC is the identity.
* `unicodedata.bidirectional` (Python standard library) is modelled by a
  partial, faithful table `bidiClass` covering the character ranges the
  development touches (Basic Latin, Hebrew letters, Arabic letters and
  Arabic-Indic digits); all remaining characters are mapped to "ON".
-/

namespace Tran

/-- Python whitespace characters in the ASCII range (the set used by
`str.split()` / `str.strip()` with no arguments). -/
def pyIsSpace (c : Char) : Bool :=
  c = ' ' ∨ c = '\t' ∨ c = '\n' ∨ c = '\r' ∨ c = '\x0b' ∨ c = '\x0c'

/-- Python `str.strip()`: remove leading and trailing whitespace. -/
def pyStrip (s : String) : String :=
  ⟨((s.data.dropWhile pyIsSpace).reverse.dropWhile pyIsSpace).reverse⟩

/-- Split a character list at every character satisfying `p`, keeping
empty pieces (the semantics of Python `str.split(sep)` for a
single-character separator, and of `re.split` on single characters). -/
def splitOnPred (p : Char → Bool) : List Char → List (List Char)
  | [] => [[]]
  | x :: rest =>
    let r := splitOnPred p rest
    if p x then [] :: r
    else
      match r with
      | [] => [[x]]
      | h :: t => (x :: h) :: t

/-- Python `s.split(c)` for a one-character separator `c`. -/
def strSplitOnChar (c : Char) (s : String) : List String :=
  (splitOnPred (fun x => x = c) s.data).map (fun l => ⟨l⟩)

/-- Python `s.startswith(p)`. -/
def strStarts (s p : String) : Bool :=
  p.data.isPrefixOf s.data

/-- Python `str.split()` with no argument: split on whitespace runs,
dropping empty pieces. -/
def pySplitWs (s : String) : List String :=
  ((splitOnPred pyIsSpace s.data).map (fun l => (⟨l⟩ : String))).filter
    (fun p => p ≠ "")

/-- One line of `clean_text`: `' '.join(line.split())`. -/
def cleanLine (line : String) : String :=
  String.intercalate " " (pySplitWs line)

/-- `text_utils.clean_text` with `preserve_newlines=True` (the only mode the
embedded extractors use).  NFKC normalisation is modelled as the identity
(see file header). -/
def cleanText (s : String) : String :=
  pyStrip (String.intercalate "\n" ((strSplitOnChar '\n' s).map cleanLine))

/-- Modelled from the Python standard library: partial table of the
Unicode bidirectional category (`unicodedata.bidirectional`).  Faithful on
Basic Latin, ASCII whitespace and digits, Hebrew letters (U+05D0–U+05EA,
category R), Arabic letters (U+0621–U+064A, category AL) and Arabic-Indic
digits (U+0660–U+0669, category AN); every other character is mapped to
the neutral category "ON". -/
def bidiClass (c : Char) : String :=
  if ('a' ≤ c ∧ c ≤ 'z') ∨ ('A' ≤ c ∧ c ≤ 'Z') then "L"
  else if '0' ≤ c ∧ c ≤ '9' then "EN"
  else if c = ' ' ∨ c = '\x0c' then "WS"
  else if c = '\t' ∨ c = '\x0b' then "S"
  else if c = '\n' ∨ c = '\r' then "B"
  else if 0x5D0 ≤ c.val ∧ c.val ≤ 0x5EA then "R"
  else if 0x660 ≤ c.val ∧ c.val ≤ 0x669 then "AN"
  else if 0x621 ≤ c.val ∧ c.val ≤ 0x64A then "AL"
  else "ON"

/-- Is the character counted on the RTL side by `detect_text_direction`
(`category in ('R', 'AL', 'AN')`)? -/
def isRtlCounted (c : Char) : Bool :=
  bidiClass c = "R" ∨ bidiClass c = "AL" ∨ bidiClass c = "AN"

/-- Is the character counted on the LTR side (`category == 'L'`)? -/
def isLtrCounted (c : Char) : Bool :=
  bidiClass c = "L"

/-- `text_utils.detect_text_direction`: count characters of bidi category
R/AL/AN against characters of category L; return "rtl" iff the former
strictly exceeds the latter; empty input returns "ltr". -/
def detectTextDirection (text : String) : String :=
  if text = "" then "ltr"
  else
    let rtl_chars := text.data.countP isRtlCounted
    let ltr_chars := text.data.countP isLtrCounted
    if rtl_chars > ltr_chars then "rtl" else "ltr"

/-! ## Unified document model (src/schemas/document.py)

Numeric modelling: pydantic `int` fields constrained with `ge=0`/`ge=1`
are modelled as `Nat` (plus, where needed, a validity predicate for lower
bounds above 0); unconstrained `int` fields as `Int`; `float` fields as
`Rat` (Python floats serialise to JSON losslessly via shortest-round-trip
`repr`, so exact rationals are a faithful model for the serialisation
claims).  `datetime` fields are modelled as their ISO-8601 string form
(`Option String`), which is exactly how pydantic serialises them. -/

inductive TextDirection where
  | ltr | rtl | auto
deriving DecidableEq, Repr

/-- `TextDirection(detect_text_direction(t))`: the Python enum constructor
applied to the output of direction detection (which is only ever
"ltr" or "rtl"). -/
def detectDirection (t : String) : TextDirection :=
  if detectTextDirection t = "rtl" then .rtl else .ltr

structure BoundingBox where
  x : Rat := 0
  y : Rat := 0
  width : Rat := 0
  height : Rat := 0
deriving DecidableEq, Repr

structure TextStyle where
  font_family : Option String := none
  font_size : Rat := 12
  font_weight : String := "normal"
  font_style : String := "normal"
  color : Option String := none
  background_color : Option String := none
  underline : Bool := false
  strikethrough : Bool := false
deriving DecidableEq, Repr

structure Link where
  text : String := ""
  url : String
  start_index : Option Nat := none
  end_index : Option Nat := none
deriving DecidableEq, Repr

structure Metadata where
  title : Option String := none
  author : Option String := none
  created_date : Option String := none
  modified_date : Option String := none
  subject : Option String := none
  keywords : List String := []
  language : Option String := none
  page_count : Option Int := none
  word_count : Option Int := none
  source_format : Option String := none
  source_filename : Option String := none
deriving DecidableEq, Repr

structure HeadingBlock where
  direction : TextDirection := .auto
  position_hint : Option String := none
  level : Nat
  text : String
  links : List Link := []
deriving DecidableEq, Repr

structure ParagraphBlock where
  direction : TextDirection := .auto
  position_hint : Option String := none
  text : String
  links : List Link := []
  is_bold : Bool := false
  is_italic : Bool := false
deriving DecidableEq, Repr

structure ImageBlock where
  direction : TextDirection := .auto
  position_hint : Option String := none
  image_id : String
  caption : Option String := none
  alt_text : Option String := none
  image_data : Option String := none
  image_path : Option String := none
  image_format : Option String := none
  width : Option Int := none
  height : Option Int := none
deriving DecidableEq, Repr

structure TableCell where
  content : String := ""
  is_header : Bool := false
  colspan : Nat := 1
  rowspan : Nat := 1
  links : List Link := []
deriving DecidableEq, Repr

structure TableRow where
  cells : List TableCell := []
  is_header_row : Bool := false
deriving DecidableEq, Repr

structure TableBlock where
  direction : TextDirection := .auto
  position_hint : Option String := none
  rows : List TableRow := []
  caption : Option String := none
  has_header : Bool := false
  column_count : Nat := 0
  row_count : Nat := 0
deriving DecidableEq, Repr

structure ListBlock where
  direction : TextDirection := .auto
  position_hint : Option String := none
  items : List String := []
  is_ordered : Bool := false
  links : List Link := []
deriving DecidableEq, Repr

structure LinkBlock where
  direction : TextDirection := .auto
  position_hint : Option String := none
  text : String
  url : String
deriving DecidableEq, Repr

structure PositionedTextBlock where
  direction : TextDirection := .auto
  position_hint : Option String := none
  text : String
  bbox : BoundingBox := {}
  style : TextStyle := {}
  confidence : Rat := 1
  language : Option String := none
deriving DecidableEq, Repr

/-- `Block = Union[HeadingBlock, ParagraphBlock, ImageBlock, TableBlock,
ListBlock, LinkBlock, PositionedTextBlock]` as a tagged union; the `type`
discriminator of the Python classes is the constructor tag. -/
inductive Block where
  | heading (b : HeadingBlock)
  | paragraph (b : ParagraphBlock)
  | image (b : ImageBlock)
  | table (b : TableBlock)
  | list (b : ListBlock)
  | link (b : LinkBlock)
  | positioned_text (b : PositionedTextBlock)
deriving DecidableEq, Repr

structure Page where
  page_number : Nat
  title : Option String := none
  blocks : List Block := []
  direction : TextDirection := .auto
deriving DecidableEq, Repr

structure Document where
  title : Option String := none
  metadata : Metadata := {}
  pages : List Page := []
  direction : TextDirection := .auto
deriving DecidableEq, Repr

/-! ## Markdown extractor (src/extractors/markdown_extractor.py)

The line-oriented parser `_parse_content` and the table parser
`_parse_table`.  The regular expressions of the source are translated
into direct character-level matchers; each matcher's doc comment names
the regex it embeds. -/

/-- Split a character list at the first occurrence of `c`: returns the
part before `c` and the part after it, or `none` when `c` is absent.
(The behaviour of a greedy negated character class `[^c]*` followed by a
literal `c`.) -/
def breakAt (c : Char) (l : List Char) : Option (List Char × List Char) :=
  let pre := l.takeWhile (fun x => x ≠ c)
  match l.drop pre.length with
  | [] => none
  | _ :: tail => some (pre, tail)

/-- Python `str.strip(ch)`: remove leading and trailing runs of `ch`. -/
def pyStripChar (ch : Char) (s : String) : String :=
  ⟨((s.data.dropWhile (fun c => c = ch)).reverse.dropWhile (fun c => c = ch)).reverse⟩

/-- `re.match(r'^(#{1,6})\s+(.+)$', line)`: on success, the heading level
and the second capture group.  The level is the length of the leading
`#` run (a run longer than 6 cannot be followed by the required
whitespace, so it fails); the second group is the remainder after the
greedy `\s+`, backtracking one character when the remainder is
whitespace only. -/
def matchHeading (line : String) : Option (Nat × String) :=
  let hashes := line.data.takeWhile (fun c => c = '#')
  let h := hashes.length
  if 1 ≤ h ∧ h ≤ 6 then
    let rest := line.data.drop h
    let ws := rest.takeWhile pyIsSpace
    if ws.length ≥ 1 ∧ rest.length ≥ 2 then
      if ws.length = rest.length then
        some (h, ⟨rest.drop (rest.length - 1)⟩)
      else
        some (h, ⟨rest.drop ws.length⟩)
    else none
  else none

/-- `re.match(r'!\[([^\]]*)\]\(([^)]+)\)', line)`: an image line;
returns (alt text, image url). -/
def matchImage (line : String) : Option (String × String) :=
  match line.data with
  | '!' :: '[' :: rest =>
    match breakAt ']' rest with
    | some (alt, rest2) =>
      match rest2 with
      | '(' :: rest3 =>
        match breakAt ')' rest3 with
        | some (url, _) => if url ≠ [] then some (⟨alt⟩, ⟨url⟩) else none
        | none => none
      | _ => none
    | none => none
  | _ => none

/-- `re.match(r'^\[([^\]]+)\]\(([^)]+)\)$', line.strip())`: a
standalone link-only line; returns (text, url). -/
def matchLinkLine (line : String) : Option (String × String) :=
  match (pyStrip line).data with
  | '[' :: rest =>
    match breakAt ']' rest with
    | some (txt, rest2) =>
      if txt = [] then none
      else
        match rest2 with
        | '(' :: rest3 =>
          match breakAt ')' rest3 with
          | some (url, rest4) =>
            if url ≠ [] ∧ rest4 = [] then some (⟨txt⟩, ⟨url⟩) else none
          | none => none
        | _ => none
    | none => none
  | _ => none

/-- `re.match(r'^\s*[-*+]\s+', line)`: an unordered list item line. -/
def isBulletLine (line : String) : Bool :=
  match line.data.dropWhile pyIsSpace with
  | m :: c :: _ => (m = '-' ∨ m = '*' ∨ m = '+') ∧ pyIsSpace c
  | _ => false

/-- `re.match(r'^\s*\d+[.)]\s+', line)`: an ordered list item line. -/
def isOrderedLine (line : String) : Bool :=
  let r := line.data.dropWhile pyIsSpace
  let digits := r.takeWhile Char.isDigit
  match r.drop digits.length with
  | m :: c :: _ => digits ≠ [] ∧ (m = '.' ∨ m = ')') ∧ pyIsSpace c
  | _ => false

/-- `re.sub(r'^\s*[-*+\d.)\s]+', '', line)`: strip the leading run of
list-marker characters from an item line. -/
def stripMarker (line : String) : String :=
  ⟨line.data.dropWhile
    (fun c => c = '-' ∨ c = '*' ∨ c = '+' ∨ c.isDigit ∨ c = '.' ∨ c = ')' ∨ pyIsSpace c)⟩

/-- `re.match(r'^[\s|:-]+$', line)`: a table separator-candidate line. -/
def isTableSepLine (line : String) : Bool :=
  line ≠ "" ∧ line.data.all (fun c => pyIsSpace c ∨ c = '|' ∨ c = ':' ∨ c = '-')

/-- `generate_image_id()` draws a random UUID; the nondeterministic id is
modelled by a fixed token (no settled claim depends on image ids). -/
def generateImageId : String := "img_00000000"

/-- `MarkdownExtractor._extract_links`: scan for `[text](url)` with
character offsets (`match.start()` / `match.end()`).  Every step consumes
at least one character, so fuel equal to the scanned list's length (see
`extractLinks`) computes the scan exactly. -/
def findLinks : Nat → List Char → Nat → List Link
  | 0, _, _ => []
  | _, [], _ => []
  | fuel + 1, '[' :: rest, pos =>
    match breakAt ']' rest with
    | some (txt, rest2) =>
      if txt ≠ [] then
        match rest2 with
        | '(' :: rest3 =>
          match breakAt ')' rest3 with
          | some (url, rest4) =>
            if url ≠ [] then
              let len := 1 + txt.length + 1 + 1 + url.length + 1
              { text := ⟨txt⟩, url := ⟨url⟩,
                start_index := some pos, end_index := some (pos + len) }
                :: findLinks fuel rest4 (pos + len)
            else findLinks fuel rest (pos + 1)
          | none => findLinks fuel rest (pos + 1)
        | _ => findLinks fuel rest (pos + 1)
      else findLinks fuel rest (pos + 1)
    | none => findLinks fuel rest (pos + 1)
  | fuel + 1, _ :: rest, pos => findLinks fuel rest (pos + 1)

def extractLinks (text : String) : List Link :=
  findLinks text.data.length text.data 0

/-- `MarkdownExtractor._parse_table`. -/
def parseTable (tableLines : List String) : Option TableBlock :=
  let rows := tableLines.enum.filterMap (fun p =>
    let idx := p.1
    let line := p.2
    if isTableSepLine line ∧ line.data.any (fun c => c = '-') then none
    else
      let cellsText := strSplitOnChar '|' (pyStripChar '|' line)
      some { cells := cellsText.map (fun t =>
               { content := cleanText t, is_header := idx = 0 }),
             is_header_row := idx = 0 })
  match rows with
  | [] => none
  | r0 :: _ =>
    some { rows := rows, has_header := true,
           row_count := rows.length, column_count := r0.cells.length }

/-- A frontmatter delimiter line: `---` followed only by whitespace
(the shape accepted by `^---\s*\n` / `\n---\s*\n` at line granularity). -/
def isDashFmLine (s : String) : Bool :=
  strStarts s "---" ∧ (s.data.drop 3).all pyIsSpace

/-- `re.sub(r'^---\s*\n(.+?)\n---\s*\n', '', content, flags=re.DOTALL)`:
strip a leading frontmatter block, modelled at line granularity: an
opening `---` line, a non-empty body, and the earliest closing `---`
line that is followed by a newline. -/
def stripFrontmatter (content : String) : String :=
  match strSplitOnChar '\n' content with
  | [] => content
  | first :: rest =>
    if isDashFmLine first then
      let close := (List.range rest.length).find? (fun j =>
        isDashFmLine (rest.getD j "") &&
        decide (String.intercalate "\n" (rest.take j) ≠ "") &&
        decide (j + 1 < rest.length))
      match close with
      | some j => String.intercalate "\n" (rest.drop (j + 1))
      | none => content
    else content

/-- `MarkdownExtractor._parse_content`: the line-oriented block parser.
Each loop iteration of the Python `while` consumes at least one line, so
running the recursion with `lines.length` as fuel (see `parseLines`)
computes the loop exactly; the fuel-exhausted case is unreachable. -/
def parseLinesF : Nat → List String → List Block
  | 0, _ => []
  | _, [] => []
  | fuel + 1, line :: rest =>
    match matchHeading line with
    | some (level, g2) =>
      let text := cleanText g2
      (if text ≠ "" then
        [Block.heading { level := level, text := text,
                         direction := detectDirection text }]
       else []) ++ parseLinesF fuel rest
    | none =>
      match matchImage line with
      | some (alt, url) =>
        Block.image { image_id := generateImageId, alt_text := some alt,
                      image_path := some url, caption := some alt }
          :: parseLinesF fuel rest
      | none =>
        match matchLinkLine line with
        | some (txt, url) =>
          Block.link { text := txt, url := url } :: parseLinesF fuel rest
        | none =>
          if isBulletLine line ∨ isOrderedLine line then
            -- the loop's first iteration condition already holds for `line`,
            -- so the consumed run is `line` followed by the matching run of
            -- `rest`
            let itemLines := line :: rest.takeWhile
              (fun l => isBulletLine l || isOrderedLine l)
            let items := itemLines.filterMap (fun l =>
              let it := stripMarker l
              if pyStrip it ≠ "" then some (cleanText it) else none)
            (if items ≠ [] then
              [Block.list { items := items, is_ordered := isOrderedLine line,
                            direction :=
                              detectDirection (String.intercalate " " items) }]
             else []) ++ parseLinesF fuel (rest.drop (itemLines.length - 1))
          else if strStarts line "|" then
            let tableLines := line :: rest.takeWhile
              (fun l => strStarts l "|" || isTableSepLine l)
            (match parseTable tableLines with
             | some tb => [Block.table tb]
             | none => []) ++ parseLinesF fuel (rest.drop (tableLines.length - 1))
          else if pyStrip line ≠ "" then
            let contLines := rest.takeWhile (fun l =>
              decide (pyStrip l ≠ "") && !strStarts l "#" &&
              !(isBulletLine l || isOrderedLine l) && !strStarts l "|")
            let para := cleanText (String.intercalate "\n" (line :: contLines))
            (if para ≠ "" then
              [Block.paragraph { text := para, direction := detectDirection para,
                                 links := extractLinks para }]
             else []) ++ parseLinesF fuel (rest.drop contLines.length)
          else parseLinesF fuel rest

/-- `_parse_content`'s while loop, run with sufficient fuel. -/
def parseLines (lines : List String) : List Block :=
  parseLinesF lines.length lines

/-- `MarkdownExtractor._parse_content` applied to raw file content. -/
def parseContent (content : String) : List Block :=
  parseLines (strSplitOnChar '\n' (stripFrontmatter content))

/-- The single `Page` built by `MarkdownExtractor.extract` (lines 33–37):
page number 1, the parsed blocks, and the direction of the whole
content. -/
def mdExtractPage (content : String) : Page :=
  { page_number := 1, blocks := parseContent content,
    direction := detectDirection content }

/-! ## Decimal rendering of numbers

Python f-strings render non-negative ints as decimal digit strings;
`natToString` is that rendering (structurally recursive via fuel, with
fuel `n + 1` always sufficient since `n / 10 < n` for `n ≥ 10`). -/

def digitChar (d : Nat) : Char :=
  if d = 0 then '0' else if d = 1 then '1' else if d = 2 then '2'
  else if d = 3 then '3' else if d = 4 then '4' else if d = 5 then '5'
  else if d = 6 then '6' else if d = 7 then '7' else if d = 8 then '8'
  else '9'

def natDigitsF : Nat → Nat → List Char
  | 0, _ => []
  | fuel + 1, n =>
    if n < 10 then [digitChar n]
    else natDigitsF fuel (n / 10) ++ [digitChar (n % 10)]

def natToString (n : Nat) : String := ⟨natDigitsF (n + 1) n⟩

/-! ## XLSX extractor (src/extractors/xlsx_extractor.py)

A worksheet is modelled by its sheet name and the grid of cell values the
`iter_rows` iteration observes: one inner list per row of the used range,
one entry per column, `none` for an empty cell (`cell.value is None`) and
`some s` for a cell whose value stringifies (`str(cell_value)`) to `s`. -/

structure Worksheet where
  name : String
  data : List (List (Option String))
deriving DecidableEq, Repr

/-- `XlsxExtractor._extract_table`: build the sheet's single table.  The
`max_row is None / max_column is None / == 0` guards correspond to an
empty grid or zero-width rows. -/
def xlsxExtractTable (data : List (List (Option String))) (sheetNum : Nat) :
    Option TableBlock :=
  if data.length = 0 ∨ (data.headD []).length = 0 then none
  else
    let rows := (data.take 1000).enum.filterMap (fun p =>
      let idx := p.1
      let rowData := p.2
      let cells := rowData.map (fun v =>
        ({ content := match v with | some s => cleanText s | none => "",
           is_header := idx = 0 } : TableCell))
      if rowData.any Option.isSome then
        some ({ cells := cells, is_header_row := idx = 0 } : TableRow)
      else none)
    match rows with
    | [] => none
    | r0 :: _ =>
      some { rows := rows, has_header := true,
             row_count := rows.length, column_count := r0.cells.length,
             position_hint := some ("sheet_" ++ natToString sheetNum) }

/-- `XlsxExtractor._extract_sheet`: heading block with the sheet name,
then the table (when present). -/
def xlsxExtractSheet (sheet : Worksheet) (sheetNum : Nat) : Page :=
  let tableBlock := xlsxExtractTable sheet.data sheetNum
  let blocks :=
    Block.heading { level := 2, text := sheet.name,
                    direction := detectDirection sheet.name,
                    position_hint := some ("sheet_" ++ natToString sheetNum) }
      :: (match tableBlock with
          | some tb => [Block.table tb]
          | none => [])
  let allText :=
    match tableBlock with
    | some tb =>
      sheet.name ++ " " ++ String.intercalate " "
        (tb.rows.flatMap (fun r => r.cells.map (fun c => c.content)))
    | none => sheet.name
  { page_number := sheetNum, title := some sheet.name,
    blocks := blocks, direction := detectDirection allText }

/-- The page list built by `XlsxExtractor.extract`: one page per
worksheet, numbered from 1 in workbook order. -/
def xlsxExtractPages (wb : List Worksheet) : List Page :=
  wb.enum.map (fun p => xlsxExtractSheet p.2 (p.1 + 1))

/-! ## PDF table extraction (src/extractors/pdf_extractor.py)

`_extract_tables` consumes `table.extract()` grids from the PDF library:
one grid per detected table, each grid a list of rows of cell contents;
`none` models a falsy cell (`None` or empty), `some s` a truthy cell whose
string form is `s`. -/

def pdfExtractTables (tablesData : List (List (List (Option String))))
    (pageNum : Nat) : List TableBlock :=
  tablesData.enum.filterMap (fun p =>
    let tableIdx := p.1
    let tableData := p.2
    if tableData = [] then none
    else
      let rows := tableData.enum.map (fun q =>
        ({ cells := q.2.map (fun c =>
             ({ content := cleanText (match c with | some s => s | none => ""),
                is_header := q.1 = 0 } : TableCell)),
           is_header_row := q.1 = 0 } : TableRow))
      match rows with
      | [] => none
      | r0 :: _ =>
        some { rows := rows, has_header := true,
               row_count := rows.length, column_count := r0.cells.length,
               position_hint := some ("page_" ++ natToString pageNum
                 ++ "_table_" ++ natToString (tableIdx + 1)) })

/-! ## Markdown converter (src/converters/markdown_converter.py) -/

/-- Python `sep.join(parts)`. -/
def joinWith (sep : String) : List String → String
  | [] => ""
  | [p] => p
  | p :: rest => p ++ sep ++ joinWith sep rest

/-- `MarkdownConverter._convert_table`: one `| ... |` line per row, a
dash separator line emitted immediately after the first row, preceded by
a bold caption and a blank line when the caption is truthy.  The
`col_widths` list the Python computes is never used in the output and is
omitted. -/
def mdConvertTable (block : TableBlock) : String :=
  if block.rows = [] then ""
  else
    let captionParts :=
      match block.caption with
      | some c => if c ≠ "" then ["**" ++ c ++ "**", ""] else []
      | none => []
    let maxCols := (block.rows.map (fun r => r.cells.length)).foldr max 0
    let rowLines := block.rows.enum.flatMap (fun p =>
      let cells := (List.range maxCols).map (fun i =>
        match p.2.cells[i]? with
        | some cell => cell.content
        | none => "")
      let line := "| " ++ joinWith " | " cells ++ " |"
      if p.1 = 0 then
        [line,
         "| " ++ joinWith " | "
           (cells.map (fun c => (⟨List.replicate (max 3 c.length) '-'⟩ : String)))
           ++ " |"]
      else [line])
    joinWith "\n" (captionParts ++ rowLines)

/-! ## Orchestrator (src/agent.py)

The agent's mutable fields `_document` / `_source_path` form the state;
each operation is a function from state to an `Except` result (raised
Python exceptions are `Except.error`) together with the successor state
for the mutating operations.  File existence and the selected
extractor's behaviour are oracle parameters (`exists_`, `extractRes`):
the file system and per-format parsers are external to the core.  A
pydantic model is always truthy, so Python's `if not self._document`
test is exactly the `none` check. -/

inductive PyErr where
  | fileNotFound (msg : String)
  | valueError (msg : String)
deriving DecidableEq, Repr

structure AgentState where
  document : Option Document := none
  source_path : Option String := none
deriving DecidableEq, Repr

/-- `Path(file_path).suffix` (pathlib): the final component's extension
including the dot; empty when the last dot is absent, leading, or
trailing. -/
def pathSuffix (path : String) : String :=
  let name := ((strSplitOnChar '/' path).getLastD "").data
  let ridx := name.reverse.findIdx (fun c => c = '.')
  if ridx = name.length then ""
  else
    let i := name.length - 1 - ridx
    if 0 < i ∧ i < name.length - 1 then ⟨name.drop i⟩ else ""

/-- Python `str.lower()` (ASCII scope). -/
def strLower (s : String) : String := ⟨s.data.map Char.toLower⟩

/-- The keys of `DocumentAgent.EXTRACTOR_MAP`, in insertion order. -/
def extractorKeys : List String :=
  [".pdf", ".docx", ".pptx", ".xlsx", ".xlsm", ".txt", ".md", ".markdown"]

/-- The keys of `DocumentAgent.CONVERTER_MAP`.  The unsupported-format
message joins `set(CONVERTER_MAP.keys())`, whose iteration order Python
leaves unspecified; the model fixes insertion order, and the theorems
only assert that every name occurs in the message. -/
def converterKeys : List String := ["html", "docx", "markdown", "md"]

def noDocMsg : String := "No document loaded. Call load() first."

/-- `DocumentAgent.load`: existence check, extension dispatch, then
extraction; `_document` and `_source_path` are assigned only after
`extractor.extract()` returns. -/
def agentLoad (exists_ : String → Bool)
    (extractRes : String → Except PyErr Document)
    (path : String) (st : AgentState) :
    Except PyErr Document × AgentState :=
  if ¬ exists_ path then
    (Except.error (.fileNotFound ("File not found: " ++ path)), st)
  else
    let ext := strLower (pathSuffix path)
    if ext ∉ extractorKeys then
      (Except.error (.valueError ("Unsupported file type: " ++ ext
        ++ ". Supported types: " ++ joinWith ", " extractorKeys)), st)
    else
      match extractRes path with
      | .error e => (Except.error e, st)
      | .ok d => (Except.ok d, { document := some d, source_path := some path })

/-- `Document.get_all_text`'s per-block contribution: blocks with a
`text` attribute contribute it, lists contribute their items, tables
their cell contents, images nothing. -/
def blockTexts : Block → List String
  | .heading b => [b.text]
  | .paragraph b => [b.text]
  | .link b => [b.text]
  | .positioned_text b => [b.text]
  | .list b => b.items
  | .table b => b.rows.flatMap (fun r => r.cells.map (fun c => c.content))
  | .image _ => []

def getAllText (d : Document) : String :=
  joinWith "\n" (d.pages.flatMap (fun p => p.blocks.flatMap blockTexts))

/-- `Document.get_all_links`'s per-block contribution. -/
def blockLinks : Block → List Link
  | .heading b => b.links
  | .paragraph b => b.links
  | .list b => b.links
  | .link b => [{ text := b.text, url := b.url }]
  | .table b => b.rows.flatMap (fun r => r.cells.flatMap (fun c => c.links))
  | _ => []

def getAllLinks (d : Document) : List Link :=
  d.pages.flatMap (fun p => p.blocks.flatMap blockLinks)

def getAllImages (d : Document) : List ImageBlock :=
  d.pages.flatMap (fun p => p.blocks.filterMap (fun b =>
    match b with
    | .image ib => some ib
    | _ => none))

def getAllTables (d : Document) : List TableBlock :=
  d.pages.flatMap (fun p => p.blocks.filterMap (fun b =>
    match b with
    | .table tb => some tb
    | _ => none))

def agentGetText (st : AgentState) : Except PyErr String :=
  match st.document with
  | none => .error (.valueError noDocMsg)
  | some d => .ok (getAllText d)

def agentGetLinks (st : AgentState) : Except PyErr (List Link) :=
  match st.document with
  | none => .error (.valueError noDocMsg)
  | some d => .ok (getAllLinks d)

def agentGetImages (st : AgentState) : Except PyErr (List ImageBlock) :=
  match st.document with
  | none => .error (.valueError noDocMsg)
  | some d => .ok (getAllImages d)

def agentGetTables (st : AgentState) : Except PyErr (List TableBlock) :=
  match st.document with
  | none => .error (.valueError noDocMsg)
  | some d => .ok (getAllTables d)

def agentGetMetadata (st : AgentState) : Except PyErr Metadata :=
  match st.document with
  | none => .error (.valueError noDocMsg)
  | some d => .ok d.metadata

/-- `DocumentAgent.get_summary`'s result dictionary. -/
structure Summary where
  title : Option String
  page_count : Nat
  total_blocks : Nat
  image_count : Nat
  table_count : Nat
  link_count : Nat
  direction : String
  source_format : Option String
  source_filename : Option String
deriving DecidableEq, Repr

def directionValue : TextDirection → String
  | .ltr => "ltr"
  | .rtl => "rtl"
  | .auto => "auto"

def agentGetSummary (st : AgentState) : Except PyErr Summary :=
  match st.document with
  | none => .error (.valueError noDocMsg)
  | some d => .ok
      { title := d.title,
        page_count := d.pages.length,
        total_blocks := (d.pages.map (fun p => p.blocks.length)).sum,
        image_count := (getAllImages d).length,
        table_count := (getAllTables d).length,
        link_count := (getAllLinks d).length,
        direction := directionValue d.direction,
        source_format := d.metadata.source_format,
        source_filename := d.metadata.source_filename }

def agentSetTitle (title : String) (st : AgentState) :
    Except PyErr AgentState :=
  match st.document with
  | none => .error (.valueError noDocMsg)
  | some d =>
    let d2 : Document :=
      { d with title := some title,
               metadata := { d.metadata with title := some title } }
    .ok { st with document := some d2 }

/-- `TextDirection(direction)`: the enum constructor, failing on strings
outside the enum values. -/
def textDirectionOfStr : String → Option TextDirection
  | "ltr" => some .ltr
  | "rtl" => some .rtl
  | "auto" => some .auto
  | _ => none

def agentSetDirection (direction : String) (st : AgentState) :
    Except PyErr AgentState :=
  match st.document with
  | none => .error (.valueError noDocMsg)
  | some d =>
    match textDirectionOfStr direction with
    | none => .error (.valueError ("'" ++ direction
        ++ "' is not a valid TextDirection"))
    | some dir => .ok { st with document := some { d with direction := dir } }

/-- The unsupported-format message `export` raises for a format outside
the converter map. -/
def unsupportedExportMsg (fmt : String) : String :=
  "Unsupported export format: " ++ fmt ++ ". Supported formats: "
    ++ joinWith ", " converterKeys

/-- `DocumentAgent.export` without an output path: the no-document and
format guards, then dispatch through the converter map.  The converters'
rendering behaviour is the oracle parameter `convert` (keyed by the
normalised format name). -/
def agentExport (convert : String → Document → String)
    (format : String) (st : AgentState) : Except PyErr String :=
  match st.document with
  | none => .error (.valueError noDocMsg)
  | some d =>
    let fmt := strLower format
    if fmt ∉ converterKeys then
      .error (.valueError (unsupportedExportMsg fmt))
    else
      .ok (convert fmt d)

/-! ## HTML converter (src/converters/html_converter.py) -/

/-- One character of `_escape_html`.  The Python chains five
`str.replace` calls (`&`, `<`, `>`, `"`, `'`); since no replacement
string contains a character replaced by a later step, the chain equals
this single character-wise expansion. -/
def escapeChar (c : Char) : List Char :=
  if c = '&' then "&amp;".data
  else if c = '<' then "&lt;".data
  else if c = '>' then "&gt;".data
  else if c = '"' then "&quot;".data
  else if c = '\x27' then "&#39;".data
  else [c]

/-- `HTMLConverter._escape_html`. -/
def escapeHtml (s : String) : String := ⟨s.data.flatMap escapeChar⟩

/-- `HTMLConverter._get_direction_attr`. -/
def getDirectionAttr : TextDirection → String
  | .rtl => " dir=\"rtl\" class=\"rtl\""
  | .ltr => " dir=\"ltr\" class=\"ltr\""
  | .auto => ""

/-- The anchor element `_apply_links` splices in for one link. -/
def linkAnchor (l : Link) : String :=
  "<a href=\"" ++ escapeHtml l.url ++ "\">" ++ escapeHtml l.text ++ "</a>"

/-- One iteration of `_apply_links`: for a link carrying both offsets,
replace the characters `[start_index, end_index)` of the current text
with the anchor element (Python string slicing is character-based, as is
`List.take`/`drop` on `.data`); links missing an offset leave the text
unchanged. -/
def spliceStep (t : String) (l : Link) : String :=
  match l.start_index, l.end_index with
  | some s, some e =>
    (⟨t.data.take s⟩ : String) ++ linkAnchor l ++ (⟨t.data.drop e⟩ : String)
  | _, _ => t

/-- `HTMLConverter._apply_links`: iterate `reversed(links)`, splicing
each link in turn. -/
def applyLinks (text : String) (links : List Link) : String :=
  links.reverse.foldl spliceStep text

/-- Python truthiness of an optional string: present and non-empty. -/
def optTruthy : Option String → Bool
  | some s => s ≠ ""
  | none => false

/-- Python `a or b` for an optional string `a` and default `b`. -/
def pyOrS (a : Option String) (b : String) : String :=
  match a with
  | some s => if s ≠ "" then s else b
  | none => b

/-- `HTMLConverter._convert_heading`. -/
def convertHeading (b : HeadingBlock) : String :=
  let text := escapeHtml b.text
  let text2 := if b.links ≠ [] then applyLinks text b.links else text
  "<h" ++ natToString b.level ++ getDirectionAttr b.direction ++ ">"
    ++ text2 ++ "</h" ++ natToString b.level ++ ">"

/-- `HTMLConverter._convert_paragraph`. -/
def convertParagraph (b : ParagraphBlock) : String :=
  let text := escapeHtml b.text
  let text2 := if b.links ≠ [] then applyLinks text b.links else text
  let classes := (if b.is_bold then ["bold"] else [])
    ++ (if b.is_italic then ["italic"] else [])
  let classAttr :=
    if classes ≠ [] then " class=\"" ++ joinWith " " classes ++ "\"" else ""
  "<p" ++ getDirectionAttr b.direction ++ classAttr ++ ">" ++ text2 ++ "</p>"

/-- `HTMLConverter._convert_image` (the `src` attribute is emitted
unescaped, exactly as in the source). -/
def convertImage (embed_images : Bool) (b : ImageBlock) : String :=
  let alt := escapeHtml (pyOrS b.alt_text (pyOrS b.caption "Image"))
  let captionParts :=
    match b.caption with
    | some c =>
      if c ≠ "" then
        ["<figcaption class=\"image-caption\">" ++ escapeHtml c
          ++ "</figcaption>"]
      else []
    | none => []
  let build := fun (src : String) =>
    joinWith "\n" (["<figure>",
      "<img src=\"" ++ src ++ "\" alt=\"" ++ alt ++ "\">"]
      ++ captionParts ++ ["</figure>"])
  if embed_images ∧ optTruthy b.image_data then build (b.image_data.getD "")
  else if optTruthy b.image_path then build (b.image_path.getD "")
  else ""

/-- `HTMLConverter._convert_table`. -/
def convertTable (b : TableBlock) : String :=
  joinWith "\n" (["<table>"]
    ++ (match b.caption with
        | some c =>
          if c ≠ "" then ["<caption>" ++ escapeHtml c ++ "</caption>"]
          else []
        | none => [])
    ++ b.rows.flatMap (fun row =>
        ["<tr>"]
        ++ row.cells.map (fun cell =>
            let tag := if cell.is_header then "th" else "td"
            let attrs :=
              (if cell.colspan > 1 then
                 ["colspan=\"" ++ natToString cell.colspan ++ "\""] else [])
              ++ (if cell.rowspan > 1 then
                 ["rowspan=\"" ++ natToString cell.rowspan ++ "\""] else [])
            let attrStr := if attrs ≠ [] then " " ++ joinWith " " attrs else ""
            "<" ++ tag ++ attrStr ++ ">" ++ escapeHtml cell.content
              ++ "</" ++ tag ++ ">")
        ++ ["</tr>"])
    ++ ["</table>"])

/-- `HTMLConverter._convert_list`. -/
def convertList (b : ListBlock) : String :=
  let tag := if b.is_ordered then "ol" else "ul"
  joinWith "\n" (["<" ++ tag ++ getDirectionAttr b.direction ++ ">"]
    ++ b.items.map (fun item => "<li>" ++ escapeHtml item ++ "</li>")
    ++ ["</" ++ tag ++ ">"])

/-- `HTMLConverter._convert_link`. -/
def convertLink (b : LinkBlock) : String :=
  "<p><a href=\"" ++ escapeHtml b.url ++ "\">" ++ escapeHtml b.text
    ++ "</a></p>"

/-- `HTMLConverter._convert_block`: dispatch on the block class; the
unhandled `PositionedTextBlock` falls through to the empty string. -/
def convertBlock (embed_images : Bool) : Block → String
  | .heading b => convertHeading b
  | .paragraph b => convertParagraph b
  | .image b => convertImage embed_images b
  | .table b => convertTable b
  | .list b => convertList b
  | .link b => convertLink b
  | .positioned_text _ => ""

/-- `HTMLConverter._get_styles`: the embedded CSS, transcribed verbatim
from the source (split into concatenated line-boundary chunks so that
concrete evaluation stays within kernel recursion limits). -/
def getStyles : String :=
  "<style>\n:root \x7b\n    --primary-color: #2c3e50;\n    --secondary-color: #3498db;\n    --text-color: #333;\n"
    ++ "    --bg-color: #fff;\n    --border-color: #ddd;\n\x7d\n\n* \x7b\n    box-sizing: border-box;\n\x7d\n\nbody \x7b\n"
    ++ "    font-family: 'Segoe UI', Tahoma, Geneva, Verdana, sans-serif;\n    line-height: 1.6;\n"
    ++ "    color: var(--text-color);\n    background-color: #f5f5f5;\n    margin: 0;\n    padding: 20px;\n\x7d\n\n"
    ++ ".document-container \x7b\n    max-width: 900px;\n    margin: 0 auto;\n    background: var(--bg-color);\n"
    ++ "    padding: 40px;\n    border-radius: 8px;\n    box-shadow: 0 2px 10px rgba(0,0,0,0.1);\n\x7d\n\n.document-title \x7b\n"
    ++ "    color: var(--primary-color);\n    border-bottom: 3px solid var(--secondary-color);\n"
    ++ "    padding-bottom: 10px;\n    margin-bottom: 30px;\n\x7d\n\n.page \x7b\n    margin-bottom: 40px;\n"
    ++ "    padding-bottom: 20px;\n    border-bottom: 1px solid var(--border-color);\n\x7d\n\n.page:last-child \x7b\n"
    ++ "    border-bottom: none;\n\x7d\n\n.page-header \x7b\n    color: #666;\n    font-size: 0.9em;\n    margin-bottom: 20px;\n\x7d\n\n"
    ++ "h1, h2, h3, h4, h5, h6 \x7b\n    color: var(--primary-color);\n    margin-top: 1.5em;\n    margin-bottom: 0.5em;\n\x7d\n\n"
    ++ "h1 \x7b font-size: 2em; \x7d\nh2 \x7b font-size: 1.75em; \x7d\nh3 \x7b font-size: 1.5em; \x7d\nh4 \x7b font-size: 1.25em; \x7d\n"
    ++ "h5 \x7b font-size: 1.1em; \x7d\nh6 \x7b font-size: 1em; \x7d\n\np \x7b\n    margin: 1em 0;\n    text-align: justify;\n\x7d\n\n.rtl \x7b\n"
    ++ "    direction: rtl;\n    text-align: right;\n\x7d\n\n.ltr \x7b\n    direction: ltr;\n    text-align: left;\n\x7d\n\na \x7b\n"
    ++ "    color: var(--secondary-color);\n    text-decoration: none;\n\x7d\n\na:hover \x7b\n    text-decoration: underline;\n\x7d\n\n"
    ++ "img \x7b\n    max-width: 100%;\n    height: auto;\n    display: block;\n    margin: 20px auto;\n"
    ++ "    border-radius: 4px;\n\x7d\n\n.image-caption \x7b\n    text-align: center;\n    color: #666;\n    font-style: italic;\n"
    ++ "    margin-top: 10px;\n\x7d\n\ntable \x7b\n    width: 100%;\n    border-collapse: collapse;\n    margin: 20px 0;\n\x7d\n\n"
    ++ "th, td \x7b\n    border: 1px solid var(--border-color);\n    padding: 12px;\n    text-align: left;\n\x7d\n\nth \x7b\n"
    ++ "    background-color: var(--primary-color);\n    color: white;\n\x7d\n\ntr:nth-child(even) \x7b\n"
    ++ "    background-color: #f9f9f9;\n\x7d\n\nul, ol \x7b\n    margin: 1em 0;\n    padding-left: 2em;\n\x7d\n\nli \x7b\n"
    ++ "    margin: 0.5em 0;\n\x7d\n\n.bold \x7b\n    font-weight: bold;\n\x7d\n\n.italic \x7b\n    font-style: italic;\n\x7d\n\n@media print \x7b\n"
    ++ "    body \x7b\n        background: white;\n        padding: 0;\n    \x7d\n    \n    .document-container \x7b\n"
    ++ "        box-shadow: none;\n        padding: 20px;\n    \x7d\n    \n    .page \x7b\n        page-break-after: always;\n"
    ++ "    \x7d\n\x7d\n\n@media (max-width: 600px) \x7b\n    .document-container \x7b\n        padding: 20px;\n    \x7d\n    \n    table \x7b\n"
    ++ "        font-size: 0.9em;\n    \x7d\n    \n    th, td \x7b\n        padding: 8px;\n    \x7d\n\x7d\n</style>"

/-- `HTMLConverter._convert_page`. -/
def convertPage (embed_images : Bool) (multiPage : Bool) (page : Page) :
    String :=
  joinWith "\n" (
    ["<div class=\"page\" id=\"page-" ++ natToString page.page_number
      ++ "\"" ++ getDirectionAttr page.direction ++ ">"]
    ++ (if multiPage then
          ["<div class=\"page-header\">"
            ++ escapeHtml (pyOrS page.title
                 ("Page " ++ natToString page.page_number))
            ++ "</div>"]
        else [])
    ++ page.blocks.map (convertBlock embed_images)
    ++ ["</div>"])

/-- `HTMLConverter.convert`: the full document rendering. -/
def htmlConvert (doc : Document) (include_styles embed_images : Bool) :
    String :=
  let title := pyOrS doc.title "Document"
  let authorParts :=
    match doc.metadata.author with
    | some a =>
      if a ≠ "" then
        ["<meta name=\"author\" content=\"" ++ escapeHtml a ++ "\">"]
      else []
    | none => []
  let subjectParts :=
    match doc.metadata.subject with
    | some s =>
      if s ≠ "" then
        ["<meta name=\"description\" content=\"" ++ escapeHtml s ++ "\">"]
      else []
    | none => []
  let keywordParts :=
    if doc.metadata.keywords ≠ [] then
      ["<meta name=\"keywords\" content=\""
        ++ escapeHtml (joinWith ", " doc.metadata.keywords) ++ "\">"]
    else []
  let styleParts := if include_styles then [getStyles] else []
  let titleParts :=
    match doc.title with
    | some t =>
      if t ≠ "" then
        ["<h1 class=\"document-title\">" ++ escapeHtml t ++ "</h1>"]
      else []
    | none => []
  joinWith "\n" (
    ["<!DOCTYPE html>",
     "<html lang=\"ar\" dir=\"auto\">",
     "<head>",
     "<meta charset=\"UTF-8\">",
     "<meta name=\"viewport\" content=\"width=device-width, initial-scale=1.0\">",
     "<title>" ++ escapeHtml title ++ "</title>"]
    ++ authorParts ++ subjectParts ++ keywordParts ++ styleParts
    ++ ["</head>",
        "<body" ++ getDirectionAttr doc.direction ++ ">",
        "<div class=\"document-container\">"]
    ++ titleParts
    ++ doc.pages.map (convertPage embed_images (doc.pages.length > 1))
    ++ ["</div>", "</body>", "</html>"])

/-! ## Declarative link-splicing (specification side for C5) -/

/-- Well-formed positioned links: both offsets present, ordered
(`lo ≤ start ≤ end`), within the text bound `n`, and non-overlapping in
list order. -/
def linksWFb (lo n : Nat) : List Link → Bool
  | [] => true
  | l :: rest =>
    match l.start_index, l.end_index with
    | some s, some e =>
      decide (lo ≤ s) && decide (s ≤ e) && decide (e ≤ n) && linksWFb e n rest
    | _, _ => false

/-- Declarative interleaving: the text from `pos` up to each link's
start, then its anchor element, continuing after the link's end — the
"anchor replaces exactly the characters of the span, surrounding text
preserved in order" reading of the splice. -/
def interleaveFrom (t : List Char) (pos : Nat) : List Link → List Char
  | [] => t.drop pos
  | l :: rest =>
    (t.drop pos).take (l.start_index.getD 0 - pos)
      ++ (linkAnchor l).data
      ++ interleaveFrom t (l.end_index.getD 0) rest

/-- The C5 counterexample link: spans `[1, 3)` of the block text. -/
def c5CexLink : Link :=
  { text := "x", url := "u", start_index := some 1, end_index := some 3 }

/-- Two well-formed non-overlapping links over an 11-character text. -/
def c5WitnessLinks : List Link :=
  [{ text := "A", url := "u1", start_index := some 0, end_index := some 5 },
   { text := "B", url := "u2", start_index := some 6, end_index := some 11 }]

/-- A paragraph block with one positioned link (C5 witness input). -/
def c5WitnessPara : ParagraphBlock :=
  { text := "go here now",
    links := [{ text := "here", url := "u",
                start_index := some 3, end_index := some 7 }] }

/-! ## Query helpers used by theorem statements -/

/-- The spec's "maximum of `len(row.cells)` over all of its rows"
(0 for a table with no rows). -/
def tableMaxCellCount (t : TableBlock) : Nat :=
  (t.rows.map (fun r => r.cells.length)).foldr max 0

/-- First table block of a block list, if any. -/
def firstTable : List Block → Option TableBlock
  | [] => none
  | Block.table t :: _ => some t
  | _ :: rest => firstTable rest

/-- Declarative form of the row the XLSX extractor builds from source row
`idx` of the used range: one cell per grid entry, header-flagged exactly
when `idx = 0`. -/
def xlsxRowSpec (idx : Nat) (rowData : List (Option String)) : TableRow :=
  { cells := rowData.map (fun v =>
      ({ content := match v with | some s => cleanText s | none => "",
         is_header := idx = 0 } : TableCell)),
    is_header_row := idx = 0 }

/-- The table `parseTable ["|x|", "|y|"]` produces (used to instantiate
the C1 theorem at a concrete input). -/
def mdSampleTable : TableBlock :=
  { rows := [{ cells := [{ content := "x", is_header := true }],
               is_header_row := true },
             { cells := [{ content := "y" }], is_header_row := false }],
    has_header := true, column_count := 1, row_count := 2 }

/-- The table `xlsxExtractTable [[some "v"]] 1` produces. -/
def xlsxSampleTable : TableBlock :=
  { position_hint := some "sheet_1",
    rows := [{ cells := [{ content := "v", is_header := true }],
               is_header_row := true }],
    has_header := true, column_count := 1, row_count := 1 }

/-- Number of newline characters in a string. -/
def countNl (s : String) : Nat := s.data.countP (fun c => c = '\n')

/-- Number of lines of a string in the Python sense: the pieces of
`s.split('\n')`. -/
def lineCount (s : String) : Nat := (strSplitOnChar '\n' s).length

/-- A table whose single cell content embeds a newline (C6
counterexample input). -/
def c6CexTable : TableBlock :=
  { rows := [{ cells := [{ content := "a\nb" }] }] }

/-- A caption-less table of 2 rows × 3 columns (C6 witness input). -/
def c6SampleTable : TableBlock :=
  { rows := [{ cells := [{ content := "h1" }, { content := "h2" },
                         { content := "h3" }], is_header_row := true },
             { cells := [{ content := "a" }, { content := "b" },
                         { content := "c" }] }],
    has_header := true, column_count := 3, row_count := 2 }

/-- The table `pdfExtractTables [[[some "v"]]] 1` produces. -/
def pdfSampleTable : TableBlock :=
  { position_hint := some "page_1_table_1",
    rows := [{ cells := [{ content := "v", is_header := true }],
               is_header_row := true }],
    has_header := true, column_count := 1, row_count := 1 }

end Tran

namespace Tran

/-! ## Script-tag safety machinery (C4)

A three-character pattern scanner: `scanSc` runs the deterministic
automaton looking for the character sequence `<`, `s`, `c` (the start of
any `<script` tag); state 3 is absorbing and is reached exactly when the
pattern has occurred.  `scstate` is the closed-form description of the
scanner's final state in terms of infix/suffix structure. -/

def scStep (st : Nat) (c : Char) : Nat :=
  if st = 3 then 3
  else if c = '<' then 1
  else if st = 1 ∧ c = 's' then 2
  else if st = 2 ∧ c = 'c' then 3
  else 0

def scanSc : Nat → List Char → Nat
  | st, [] => st
  | st, c :: rest => scanSc (scStep st c) rest

def scstate (l : List Char) : Nat :=
  if ['<', 's', 'c'] <:+: l then 3
  else if ['<', 's'] <:+ l then 2
  else if ['<'] <:+ l then 1
  else 0

/-- A string whose scan from state 0 ends back in state 0: it contains
no `<sc` and does not end in a partial match (`<` or `<s`). -/
def scan0 (s : String) : Prop := scanSc 0 s.data = 0

/-- No `<` character occurs in the string. -/
def noLtStr (s : String) : Bool := s.data.all (fun c => c != '<')

/-- The safety hypothesis for C4: image `src` attribute values (which
the converter emits unescaped — they are file paths or data URIs, not
document text) contain no `<`. -/
def imageSrcSafe (b : ImageBlock) : Bool :=
  (match b.image_data with | some s => noLtStr s | none => true) &&
  (match b.image_path with | some s => noLtStr s | none => true)

def blockSafe : Block → Bool
  | .image b => imageSrcSafe b
  | _ => true

def docImageSafe (d : Document) : Bool :=
  d.pages.all (fun p => p.blocks.all blockSafe)

def c4para : ParagraphBlock := { text := "a<script>b" }

def c4pg : Page := { page_number := 1, blocks := [Block.paragraph c4para] }

def c4doc : Document := { pages := [c4pg] }

end Tran

namespace Tran

/-! ## JSON serialisation (src/schemas/document.py, C3)

`Document.to_json` is `model_dump_json` and `Document.from_json` is
`model_validate_json`.  The JSON text layer (printing and re-parsing of
the standard JSON syntax, which is injective on the tree) is abstracted:
serialisation is modelled as a map into a JSON value tree `JVal`, and
validation as a partial map back.  `model_dump` emits every field in
declaration order, enums as their string values, `datetime` as ISO
strings, `None` as `null`; `model_validate` looks fields up by key,
substitutes declared defaults for missing keys, ignores unknown keys,
and enforces the declared `ge`/`le` constraints.  For the `Block` union
pydantic's smart-union resolution on a serialised block dict always
selects the class named by the `type` discriminator: every other union
member either misses a required field or validates while consuming
strictly fewer of the dict's keys. -/

inductive JVal where
  | null
  | bool (b : Bool)
  | num (q : Rat)
  | str (s : String)
  | arr (xs : List JVal)
  | obj (kvs : List (String × JVal))

/-- Key lookup in a JSON object (first match). -/
def jGet : List (String × JVal) → String → Option JVal
  | [], _ => none
  | (k, v) :: rest, key => if k = key then some v else jGet rest key

/-- Option-valued traversal (the effect of validating each element of a
JSON array). -/
def optTrav {α β : Type} (f : α → Option β) : List α → Option (List β)
  | [] => some []
  | x :: xs =>
    match f x, optTrav f xs with
    | some y, some ys => some (y :: ys)
    | _, _ => none

def jOptStr : Option String → JVal
  | some s => .str s
  | none => .null

def jnat (n : Nat) : JVal := .num (n : Rat)

def jOptNat : Option Nat → JVal
  | some n => jnat n
  | none => .null

def jOptInt : Option Int → JVal
  | some i => .num (i : Rat)
  | none => .null

def jdir : TextDirection → JVal
  | .ltr => .str "ltr"
  | .rtl => .str "rtl"
  | .auto => .str "auto"

def dStr : JVal → Option String
  | .str s => some s
  | _ => none

def dOptStr : JVal → Option (Option String)
  | .null => some none
  | .str s => some (some s)
  | _ => none

def dBool : JVal → Option Bool
  | .bool b => some b
  | _ => none

def dRat : JVal → Option Rat
  | .num q => some q
  | _ => none

def dOptInt : JVal → Option (Option Int)
  | .null => some none
  | .num q => if q.den = 1 then some (some q.num) else none
  | _ => none

def dOptNat : JVal → Option (Option Nat)
  | .null => some none
  | .num q =>
    if q.den = 1 ∧ 0 ≤ q.num then some (some q.num.toNat) else none
  | _ => none

/-- An integer field constrained by `ge=lo` (modelled as `Nat`). -/
def dNatGe (lo : Nat) : JVal → Option Nat
  | .num q =>
    if q.den = 1 ∧ (lo : Int) ≤ q.num then some q.num.toNat else none
  | _ => none

/-- `level: int = Field(ge=1, le=6)`. -/
def dLevel : JVal → Option Nat
  | .num q =>
    if q.den = 1 ∧ 1 ≤ q.num ∧ q.num ≤ 6 then some q.num.toNat else none
  | _ => none

/-- `confidence: float = Field(ge=0, le=1)`. -/
def dConf : JVal → Option Rat
  | .num q => if 0 ≤ q ∧ q ≤ 1 then some q else none
  | _ => none

def dDir : JVal → Option TextDirection
  | .str s =>
    if s = "ltr" then some .ltr
    else if s = "rtl" then some .rtl
    else if s = "auto" then some .auto
    else none
  | _ => none

def dStrList : JVal → Option (List String)
  | .arr xs => optTrav dStr xs
  | _ => none

/-- A field with a declared default: a missing key yields the default. -/
def optField {α : Type} (dec : JVal → Option α) (defv : α)
    (kvs : List (String × JVal)) (key : String) : Option α :=
  match jGet kvs key with
  | none => some defv
  | some j => dec j

/-- A required field: a missing key fails validation. -/
def reqField {α : Type} (dec : JVal → Option α)
    (kvs : List (String × JVal)) (key : String) : Option α :=
  match jGet kvs key with
  | none => none
  | some j => dec j

def toJsonLink (l : Link) : JVal :=
  .obj [("text", .str l.text), ("url", .str l.url),
    ("start_index", jOptNat l.start_index),
    ("end_index", jOptNat l.end_index)]

def fromJsonLink : JVal → Option Link
  | .obj kvs => do
    let text ← optField dStr "" kvs "text"
    let url ← reqField dStr kvs "url"
    let si ← optField dOptNat none kvs "start_index"
    let ei ← optField dOptNat none kvs "end_index"
    some { text := text, url := url, start_index := si, end_index := ei }
  | _ => none

end Tran

namespace Tran

def dLinkList : JVal → Option (List Link)
  | .arr xs => optTrav fromJsonLink xs
  | _ => none

def toJsonBBox (b : BoundingBox) : JVal :=
  .obj [("x", .num b.x), ("y", .num b.y), ("width", .num b.width),
    ("height", .num b.height)]

def fromJsonBBox : JVal → Option BoundingBox
  | .obj kvs => do
    let x ← optField dRat 0 kvs "x"
    let y ← optField dRat 0 kvs "y"
    let w ← optField dRat 0 kvs "width"
    let h ← optField dRat 0 kvs "height"
    some { x := x, y := y, width := w, height := h }
  | _ => none

def toJsonTextStyle (t : TextStyle) : JVal :=
  .obj [("font_family", jOptStr t.font_family),
    ("font_size", .num t.font_size),
    ("font_weight", .str t.font_weight),
    ("font_style", .str t.font_style),
    ("color", jOptStr t.color),
    ("background_color", jOptStr t.background_color),
    ("underline", .bool t.underline),
    ("strikethrough", .bool t.strikethrough)]

def fromJsonTextStyle : JVal → Option TextStyle
  | .obj kvs => do
    let ff ← optField dOptStr none kvs "font_family"
    let fs ← optField dRat 12 kvs "font_size"
    let fw ← optField dStr "normal" kvs "font_weight"
    let fst ← optField dStr "normal" kvs "font_style"
    let col ← optField dOptStr none kvs "color"
    let bg ← optField dOptStr none kvs "background_color"
    let ul ← optField dBool false kvs "underline"
    let st ← optField dBool false kvs "strikethrough"
    some { font_family := ff, font_size := fs, font_weight := fw,
            font_style := fst, color := col, background_color := bg,
            underline := ul, strikethrough := st }
  | _ => none

def toJsonMetadata (m : Metadata) : JVal :=
  .obj [("title", jOptStr m.title),
    ("author", jOptStr m.author),
    ("created_date", jOptStr m.created_date),
    ("modified_date", jOptStr m.modified_date),
    ("subject", jOptStr m.subject),
    ("keywords", .arr (m.keywords.map JVal.str)),
    ("language", jOptStr m.language),
    ("page_count", jOptInt m.page_count),
    ("word_count", jOptInt m.word_count),
    ("source_format", jOptStr m.source_format),
    ("source_filename", jOptStr m.source_filename)]

def fromJsonMetadata : JVal → Option Metadata
  | .obj kvs => do
    let title ← optField dOptStr none kvs "title"
    let author ← optField dOptStr none kvs "author"
    let cd ← optField dOptStr none kvs "created_date"
    let md ← optField dOptStr none kvs "modified_date"
    let subject ← optField dOptStr none kvs "subject"
    let keywords ← optField dStrList [] kvs "keywords"
    let language ← optField dOptStr none kvs "language"
    let pc ← optField dOptInt none kvs "page_count"
    let wc ← optField dOptInt none kvs "word_count"
    let sf ← optField dOptStr none kvs "source_format"
    let sn ← optField dOptStr none kvs "source_filename"
    some { title := title, author := author, created_date := cd,
            modified_date := md, subject := subject, keywords := keywords,
            language := language, page_count := pc, word_count := wc,
            source_format := sf, source_filename := sn }
  | _ => none

def toJsonTableCell (c : TableCell) : JVal :=
  .obj [("content", .str c.content),
    ("is_header", .bool c.is_header),
    ("colspan", jnat c.colspan),
    ("rowspan", jnat c.rowspan),
    ("links", .arr (c.links.map toJsonLink))]

def fromJsonTableCell : JVal → Option TableCell
  | .obj kvs => do
    let content ← optField dStr "" kvs "content"
    let ih ← optField dBool false kvs "is_header"
    let cs ← optField (dNatGe 1) 1 kvs "colspan"
    let rs ← optField (dNatGe 1) 1 kvs "rowspan"
    let links ← optField dLinkList [] kvs "links"
    some { content := content, is_header := ih, colspan := cs,
            rowspan := rs, links := links }
  | _ => none

def dCellList : JVal → Option (List TableCell)
  | .arr xs => optTrav fromJsonTableCell xs
  | _ => none

def toJsonTableRow (r : TableRow) : JVal :=
  .obj [("cells", .arr (r.cells.map toJsonTableCell)),
    ("is_header_row", .bool r.is_header_row)]

def fromJsonTableRow : JVal → Option TableRow
  | .obj kvs => do
    let cells ← optField dCellList [] kvs "cells"
    let ihr ← optField dBool false kvs "is_header_row"
    some { cells := cells, is_header_row := ihr }
  | _ => none

def dRowList : JVal → Option (List TableRow)
  | .arr xs => optTrav fromJsonTableRow xs
  | _ => none

def toJsonHeading (b : HeadingBlock) : JVal :=
  .obj [("type", .str "heading"),
    ("direction", jdir b.direction),
    ("position_hint", jOptStr b.position_hint),
    ("level", jnat b.level),
    ("text", .str b.text),
    ("links", .arr (b.links.map toJsonLink))]

def fromJsonHeading : JVal → Option HeadingBlock
  | .obj kvs => do
    let dir ← optField dDir .auto kvs "direction"
    let ph ← optField dOptStr none kvs "position_hint"
    let level ← reqField dLevel kvs "level"
    let text ← reqField dStr kvs "text"
    let links ← optField dLinkList [] kvs "links"
    some { direction := dir, position_hint := ph, level := level,
            text := text, links := links }
  | _ => none

def toJsonParagraph (b : ParagraphBlock) : JVal :=
  .obj [("type", .str "paragraph"),
    ("direction", jdir b.direction),
    ("position_hint", jOptStr b.position_hint),
    ("text", .str b.text),
    ("links", .arr (b.links.map toJsonLink)),
    ("is_bold", .bool b.is_bold),
    ("is_italic", .bool b.is_italic)]

def fromJsonParagraph : JVal → Option ParagraphBlock
  | .obj kvs => do
    let dir ← optField dDir .auto kvs "direction"
    let ph ← optField dOptStr none kvs "position_hint"
    let text ← reqField dStr kvs "text"
    let links ← optField dLinkList [] kvs "links"
    let ib ← optField dBool false kvs "is_bold"
    let ii ← optField dBool false kvs "is_italic"
    some { direction := dir, position_hint := ph, text := text,
            links := links, is_bold := ib, is_italic := ii }
  | _ => none

def toJsonImage (b : ImageBlock) : JVal :=
  .obj [("type", .str "image"),
    ("direction", jdir b.direction),
    ("position_hint", jOptStr b.position_hint),
    ("image_id", .str b.image_id),
    ("caption", jOptStr b.caption),
    ("alt_text", jOptStr b.alt_text),
    ("image_data", jOptStr b.image_data),
    ("image_path", jOptStr b.image_path),
    ("image_format", jOptStr b.image_format),
    ("width", jOptInt b.width),
    ("height", jOptInt b.height)]

def fromJsonImage : JVal → Option ImageBlock
  | .obj kvs => do
    let dir ← optField dDir .auto kvs "direction"
    let ph ← optField dOptStr none kvs "position_hint"
    let iid ← reqField dStr kvs "image_id"
    let cap ← optField dOptStr none kvs "caption"
    let alt ← optField dOptStr none kvs "alt_text"
    let idata ← optField dOptStr none kvs "image_data"
    let ipath ← optField dOptStr none kvs "image_path"
    let ifmt ← optField dOptStr none kvs "image_format"
    let w ← optField dOptInt none kvs "width"
    let h ← optField dOptInt none kvs "height"
    some { direction := dir, position_hint := ph, image_id := iid,
            caption := cap, alt_text := alt, image_data := idata,
            image_path := ipath, image_format := ifmt, width := w, height := h }
  | _ => none

def toJsonTable (b : TableBlock) : JVal :=
  .obj [("type", .str "table"),
    ("direction", jdir b.direction),
    ("position_hint", jOptStr b.position_hint),
    ("rows", .arr (b.rows.map toJsonTableRow)),
    ("caption", jOptStr b.caption),
    ("has_header", .bool b.has_header),
    ("column_count", jnat b.column_count),
    ("row_count", jnat b.row_count)]

def fromJsonTable : JVal → Option TableBlock
  | .obj kvs => do
    let dir ← optField dDir .auto kvs "direction"
    let ph ← optField dOptStr none kvs "position_hint"
    let rows ← optField dRowList [] kvs "rows"
    let cap ← optField dOptStr none kvs "caption"
    let hh ← optField dBool false kvs "has_header"
    let cc ← optField (dNatGe 0) 0 kvs "column_count"
    let rc ← optField (dNatGe 0) 0 kvs "row_count"
    some { direction := dir, position_hint := ph, rows := rows,
            caption := cap, has_header := hh, column_count := cc,
            row_count := rc }
  | _ => none

def toJsonListBlock (b : ListBlock) : JVal :=
  .obj [("type", .str "list"),
    ("direction", jdir b.direction),
    ("position_hint", jOptStr b.position_hint),
    ("items", .arr (b.items.map JVal.str)),
    ("is_ordered", .bool b.is_ordered),
    ("links", .arr (b.links.map toJsonLink))]

def fromJsonListBlock : JVal → Option ListBlock
  | .obj kvs => do
    let dir ← optField dDir .auto kvs "direction"
    let ph ← optField dOptStr none kvs "position_hint"
    let items ← optField dStrList [] kvs "items"
    let io ← optField dBool false kvs "is_ordered"
    let links ← optField dLinkList [] kvs "links"
    some { direction := dir, position_hint := ph, items := items,
            is_ordered := io, links := links }
  | _ => none

def toJsonLinkBlock (b : LinkBlock) : JVal :=
  .obj [("type", .str "link"),
    ("direction", jdir b.direction),
    ("position_hint", jOptStr b.position_hint),
    ("text", .str b.text),
    ("url", .str b.url)]

def fromJsonLinkBlock : JVal → Option LinkBlock
  | .obj kvs => do
    let dir ← optField dDir .auto kvs "direction"
    let ph ← optField dOptStr none kvs "position_hint"
    let text ← reqField dStr kvs "text"
    let url ← reqField dStr kvs "url"
    some { direction := dir, position_hint := ph, text := text,
            url := url }
  | _ => none

def toJsonPositioned (b : PositionedTextBlock) : JVal :=
  .obj [("type", .str "positioned_text"),
    ("direction", jdir b.direction),
    ("position_hint", jOptStr b.position_hint),
    ("text", .str b.text),
    ("bbox", toJsonBBox b.bbox),
    ("style", toJsonTextStyle b.style),
    ("confidence", .num b.confidence),
    ("language", jOptStr b.language)]

def fromJsonPositioned : JVal → Option PositionedTextBlock
  | .obj kvs => do
    let dir ← optField dDir .auto kvs "direction"
    let ph ← optField dOptStr none kvs "position_hint"
    let text ← reqField dStr kvs "text"
    let bbox ← optField fromJsonBBox {} kvs "bbox"
    let style ← optField fromJsonTextStyle {} kvs "style"
    let conf ← optField dConf 1 kvs "confidence"
    let lang ← optField dOptStr none kvs "language"
    some { direction := dir, position_hint := ph, text := text,
            bbox := bbox, style := style, confidence := conf,
            language := lang }
  | _ => none

def toJsonBlock : Block → JVal
  | .heading b => toJsonHeading b
  | .paragraph b => toJsonParagraph b
  | .image b => toJsonImage b
  | .table b => toJsonTable b
  | .list b => toJsonListBlock b
  | .link b => toJsonLinkBlock b
  | .positioned_text b => toJsonPositioned b

/-- The `type` discriminator of a serialised block dict. -/
def jType : JVal → Option String
  | .obj kvs =>
    match jGet kvs "type" with
    | some (.str t) => some t
    | _ => none
  | _ => none

def fromJsonBlock (j : JVal) : Option Block :=
  match jType j with
  | some t =>
    if t = "heading" then (fromJsonHeading j).map .heading
    else if t = "paragraph" then (fromJsonParagraph j).map .paragraph
    else if t = "image" then (fromJsonImage j).map .image
    else if t = "table" then (fromJsonTable j).map .table
    else if t = "list" then (fromJsonListBlock j).map .list
    else if t = "link" then (fromJsonLinkBlock j).map .link
    else if t = "positioned_text" then
      (fromJsonPositioned j).map .positioned_text
    else none
  | none => none

def dBlockList : JVal → Option (List Block)
  | .arr xs => optTrav fromJsonBlock xs
  | _ => none

def toJsonPage (p : Page) : JVal :=
  .obj [("page_number", jnat p.page_number),
    ("title", jOptStr p.title),
    ("blocks", .arr (p.blocks.map toJsonBlock)),
    ("direction", jdir p.direction)]

def fromJsonPage : JVal → Option Page
  | .obj kvs => do
    let pn ← reqField (dNatGe 1) kvs "page_number"
    let title ← optField dOptStr none kvs "title"
    let blocks ← optField dBlockList [] kvs "blocks"
    let dir ← optField dDir .auto kvs "direction"
    some { page_number := pn, title := title, blocks := blocks,
            direction := dir }
  | _ => none

def dPageList : JVal → Option (List Page)
  | .arr xs => optTrav fromJsonPage xs
  | _ => none

/-- `Document.to_json` (= `model_dump_json`), at the JSON-tree level. -/
def toJsonDocument (d : Document) : JVal :=
  .obj [("title", jOptStr d.title),
    ("metadata", toJsonMetadata d.metadata),
    ("pages", .arr (d.pages.map toJsonPage)),
    ("direction", jdir d.direction)]

/-- `Document.from_json` (= `model_validate_json`), at the JSON-tree
level. -/
def fromJsonDocument : JVal → Option Document
  | .obj kvs => do
    let title ← optField dOptStr none kvs "title"
    let md ← optField fromJsonMetadata {} kvs "metadata"
    let pages ← optField dPageList [] kvs "pages"
    let dir ← optField dDir .auto kvs "direction"
    some { title := title, metadata := md, pages := pages,
            direction := dir }
  | _ => none

/-- The pydantic field constraints (`ge`/`le` bounds) of the model, on
the Lean side: exactly the documents `model_validate` accepts. -/
def validBlock : Block → Bool
  | .heading b => decide (1 ≤ b.level) && decide (b.level ≤ 6)
  | .table b => b.rows.all (fun r => r.cells.all (fun c =>
      decide (1 ≤ c.colspan) && decide (1 ≤ c.rowspan)))
  | .positioned_text b =>
      decide (0 ≤ b.confidence) && decide (b.confidence ≤ 1)
  | _ => true

def validPage (p : Page) : Bool :=
  decide (1 ≤ p.page_number) && p.blocks.all validBlock

def validDoc (d : Document) : Bool := d.pages.all validPage

end Tran

namespace Tran

def c3doc : Document :=
  { title := some "T",
    metadata := { author := some "A", keywords := ["k1", "k2"],
                  page_count := some 2 },
    pages := [
      { page_number := 1,
        blocks := [
          Block.heading { level := 2, text := "H" },
          Block.paragraph { text := "P",
                            links := [{ url := "u", start_index := some 0,
                                        end_index := some 1 }] },
          Block.table { rows := [{ cells := [{ content := "c",
                                               rowspan := 2 }] }] },
          Block.positioned_text { text := "x", confidence := 0 },
          Block.link { text := "L", url := "u2" },
          Block.list { items := ["i"] },
          Block.image { image_id := "img1", width := some 3 }] }],
    direction := .rtl }

end Tran

namespace Tran

/-! # Theorems -/

/-- C1 (counterexample): the claim "`column_count` equals the maximum of
`len(row.cells)` over all rows for every extractor-produced table" is
false: the Markdown extractor on the input `"|a|\n|b|c|"` produces a
table whose `column_count` is 1 (the first row's cell count) while the
maximum cell count over its rows is 2. -/
theorem c1_column_count_not_max :
    ((firstTable (parseContent "|a|\n|b|c|")).map
        (fun t => (t.column_count, tableMaxCellCount t))) = some (1, 2) ∧
      (1 : Nat) ≠ 2 :=
  ⟨by decide, by decide⟩

/-- C1 (amended): for every `TableBlock` produced by the Markdown, XLSX
or PDF extractor, `row_count` equals the number of rows and
`column_count` equals the cell count of the **first** row (not the
maximum over all rows). -/
theorem c1_counts_from_first_row :
    (∀ tls t, parseTable tls = some t →
        t.row_count = t.rows.length ∧
        t.column_count = ((t.rows.map (fun r => r.cells.length)).headD 0)) ∧
    (∀ data n t, xlsxExtractTable data n = some t →
        t.row_count = t.rows.length ∧
        t.column_count = ((t.rows.map (fun r => r.cells.length)).headD 0)) ∧
    (∀ tds n t, t ∈ pdfExtractTables tds n →
        t.row_count = t.rows.length ∧
        t.column_count = ((t.rows.map (fun r => r.cells.length)).headD 0)) := by
  refine ⟨?_, ?_, ?_⟩
  · intro tls t h
    unfold parseTable at h
    dsimp only at h
    split at h
    · exact absurd h (by simp)
    · next r0 rs heq =>
      simp only [Option.some.injEq] at h
      subst h
      refine ⟨rfl, ?_⟩
      simp only [heq, List.map_cons, List.headD_cons]
  · intro data n t h
    unfold xlsxExtractTable at h
    split at h
    · exact absurd h (by simp)
    · dsimp only at h
      split at h
      · exact absurd h (by simp)
      · next r0 rs heq =>
        simp only [Option.some.injEq] at h
        subst h
        refine ⟨rfl, ?_⟩
        simp only [heq, List.map_cons, List.headD_cons]
  · intro tds n t h
    unfold pdfExtractTables at h
    simp only [List.mem_filterMap] at h
    obtain ⟨p, -, hp⟩ := h
    split at hp
    · exact absurd hp (by simp)
    · split at hp
      · exact absurd hp (by simp)
      · next r0 rs heq =>
        simp only [Option.some.injEq] at hp
        subst hp
        refine ⟨rfl, ?_⟩
        simp only [heq, List.map_cons, List.headD_cons]

/-- C1 (witness): the amended statement instantiated at concrete tables
produced by each of the three extractors. -/
theorem c1_counts_from_first_row_witness :
    (mdSampleTable.row_count = mdSampleTable.rows.length ∧
      mdSampleTable.column_count =
        ((mdSampleTable.rows.map (fun r => r.cells.length)).headD 0)) ∧
    (xlsxSampleTable.row_count = xlsxSampleTable.rows.length ∧
      xlsxSampleTable.column_count =
        ((xlsxSampleTable.rows.map (fun r => r.cells.length)).headD 0)) ∧
    (pdfSampleTable.row_count = pdfSampleTable.rows.length ∧
      pdfSampleTable.column_count =
        ((pdfSampleTable.rows.map (fun r => r.cells.length)).headD 0)) :=
  ⟨c1_counts_from_first_row.1 ["|x|", "|y|"] mdSampleTable (by decide),
   c1_counts_from_first_row.2.1 [[some "v"]] 1 xlsxSampleTable (by decide),
   c1_counts_from_first_row.2.2 [[[some "v"]]] 1 pdfSampleTable (by decide)⟩

/-- Helper: the "rtl" outcome of `detect_text_direction` is equivalent to
the strict count comparison. -/
theorem detect_rtl_iff (t : String) :
    detectTextDirection t = "rtl" ↔
      t.data.countP isRtlCounted > t.data.countP isLtrCounted := by
  by_cases ht : t = ""
  · subst ht
    exact ⟨fun h => absurd h (by decide), fun h => absurd h (by decide)⟩
  · unfold detectTextDirection
    rw [if_neg ht]
    by_cases hgt : t.data.countP isRtlCounted > t.data.countP isLtrCounted
    · simp [hgt]
    · simp only [if_neg hgt]
      exact ⟨fun h => absurd h (by decide), fun h => absurd h hgt⟩

/-- Helper: when the rtl count does not exceed the ltr count the result
is "ltr". -/
theorem detect_ltr_of_not_gt (t : String)
    (h : ¬ t.data.countP isRtlCounted > t.data.countP isLtrCounted) :
    detectTextDirection t = "ltr" := by
  unfold detectTextDirection
  split
  · rfl
  · exact if_neg h

/-- Helper: whitespace characters are counted on neither side. -/
theorem space_not_counted (c : Char) (hc : pyIsSpace c = true) :
    isRtlCounted c = false ∧ isLtrCounted c = false := by
  unfold pyIsSpace at hc
  simp only [decide_eq_true_eq] at hc
  rcases hc with h | h | h | h | h | h <;> subst h <;> decide

/-- C2: `detect_direction(T)` returns "rtl" iff the count of characters
of bidi category R/AL/AN strictly exceeds the count of category-L
characters; ties, empty input and whitespace-only input yield "ltr";
characters of any other bidi category do not affect the result. -/
theorem c2_detect_direction :
    (∀ t : String,
        detectTextDirection t = "rtl" ↔
          t.data.countP isRtlCounted > t.data.countP isLtrCounted) ∧
    (∀ t : String,
        t.data.countP isRtlCounted = t.data.countP isLtrCounted →
          detectTextDirection t = "ltr") ∧
    detectTextDirection "" = "ltr" ∧
    (∀ t : String, (∀ c ∈ t.data, pyIsSpace c = true) →
        detectTextDirection t = "ltr") ∧
    (∀ (pre post : List Char) (c : Char),
        bidiClass c ≠ "R" → bidiClass c ≠ "AL" → bidiClass c ≠ "AN" →
        bidiClass c ≠ "L" →
        detectTextDirection ⟨pre ++ c :: post⟩ =
          detectTextDirection ⟨pre ++ post⟩) := by
  refine ⟨detect_rtl_iff, ?_, by decide, ?_, ?_⟩
  · intro t h
    exact detect_ltr_of_not_gt t (by omega)
  · intro t hws
    refine detect_ltr_of_not_gt t ?_
    have h1 : t.data.countP isRtlCounted = 0 :=
      List.countP_eq_zero.mpr (fun c hc => by
        simp [(space_not_counted c (hws c hc)).1])
    have h2 : t.data.countP isLtrCounted = 0 :=
      List.countP_eq_zero.mpr (fun c hc => by
        simp [(space_not_counted c (hws c hc)).2])
    omega
  · intro pre post c h1 h2 h3 h4
    have hrc : isRtlCounted c = false := by
      simp [isRtlCounted, h1, h2, h3]
    have hlc : isLtrCounted c = false := by
      simp [isLtrCounted, h4]
    have hcounts : ∀ p : Char → Bool, p c = false →
        (pre ++ c :: post).countP p = (pre ++ post).countP p := by
      intro p hp
      simp [List.countP_append, List.countP_cons, hp]
    by_cases hpp : pre ++ post = []
    · have hpre : pre = [] := by
        cases pre <;> simp_all
      have hpost : post = [] := by
        simp_all
      subst hpre
      subst hpost
      have hl : detectTextDirection ⟨[] ++ c :: []⟩ = "ltr" := by
        refine detect_ltr_of_not_gt _ ?_
        show ¬ ([] ++ c :: []).countP isRtlCounted >
            ([] ++ c :: []).countP isLtrCounted
        simp [List.countP_cons, hrc, hlc]
      rw [hl]
      decide
    · by_cases hgt : (⟨pre ++ c :: post⟩ : String).data.countP isRtlCounted >
          (⟨pre ++ c :: post⟩ : String).data.countP isLtrCounted
      · have hgt2 : (⟨pre ++ post⟩ : String).data.countP isRtlCounted >
            (⟨pre ++ post⟩ : String).data.countP isLtrCounted := by
          show (pre ++ post).countP isRtlCounted >
              (pre ++ post).countP isLtrCounted
          have e1 := hcounts isRtlCounted hrc
          have e2 := hcounts isLtrCounted hlc
          revert hgt
          show (pre ++ c :: post).countP isRtlCounted >
              (pre ++ c :: post).countP isLtrCounted → _
          omega
        rw [(detect_rtl_iff _).mpr hgt, (detect_rtl_iff _).mpr hgt2]
      · have hgt2 : ¬ (⟨pre ++ post⟩ : String).data.countP isRtlCounted >
            (⟨pre ++ post⟩ : String).data.countP isLtrCounted := by
          show ¬ (pre ++ post).countP isRtlCounted >
              (pre ++ post).countP isLtrCounted
          have e1 := hcounts isRtlCounted hrc
          have e2 := hcounts isLtrCounted hlc
          revert hgt
          show ¬ ((pre ++ c :: post).countP isRtlCounted >
              (pre ++ c :: post).countP isLtrCounted) → _
          omega
        rw [detect_ltr_of_not_gt _ hgt, detect_ltr_of_not_gt _ hgt2]

/-- C2 (witness): the conjuncts with hypotheses instantiated at concrete
inputs: a tie (digits are counted on neither side, so "09" ties at 0),
a whitespace-only string, and an ignored punctuation character. -/
theorem c2_detect_direction_witness :
    detectTextDirection "09" = "ltr" ∧
    detectTextDirection " \t\n" = "ltr" ∧
    detectTextDirection ⟨['a'] ++ '!' :: ['b']⟩ =
      detectTextDirection ⟨['a'] ++ ['b']⟩ :=
  ⟨c2_detect_direction.2.1 "09" (by decide),
   c2_detect_direction.2.2.2.1 " \t\n" (by decide),
   c2_detect_direction.2.2.2.2 ['a'] ['b'] '!'
     (by decide) (by decide) (by decide) (by decide)⟩

/-- Helper: the row list the XLSX table loop builds equals the
declarative filter-then-map form. -/
theorem xlsxRows_eq (l : List (Nat × List (Option String))) :
    l.filterMap (fun p =>
      let idx := p.1
      let rowData := p.2
      let cells := rowData.map (fun v =>
        ({ content := match v with | some s => cleanText s | none => "",
           is_header := idx = 0 } : TableCell))
      if rowData.any Option.isSome then
        some ({ cells := cells, is_header_row := idx = 0 } : TableRow)
      else none) =
    (l.filter (fun p => p.2.any Option.isSome)).map
      (fun p => xlsxRowSpec p.1 p.2) := by
  induction l with
  | nil => rfl
  | cons x xs ih =>
    simp only [List.filterMap_cons, List.filter_cons]
    rw [ih]
    by_cases hx : x.2.any Option.isSome
    · simp only [hx, if_true, if_pos]
      simp [xlsxRowSpec]
    · simp only [hx]
      simp

/-- Helper: properties of the table `_extract_table` produces: at most
1000 rows, header flag set, and rows exactly the 1000-capped used range
with all-empty rows dropped and source row 0 header-flagged. -/
theorem xlsxExtractTable_props (data : List (List (Option String)))
    (n : Nat) (tb : TableBlock) (h : xlsxExtractTable data n = some tb) :
    tb.rows.length ≤ 1000 ∧ tb.has_header = true ∧
    tb.rows = ((data.take 1000).enum.filter
                 (fun p => p.2.any Option.isSome)).map
                (fun p => xlsxRowSpec p.1 p.2) := by
  unfold xlsxExtractTable at h
  split at h
  · exact absurd h (by simp)
  · rw [xlsxRows_eq] at h
    dsimp only at h
    split at h
    · exact absurd h (by simp)
    · next r0 rs heq =>
      simp only [Option.some.injEq] at h
      subst h
      refine ⟨?_, rfl, rfl⟩
      show (((data.take 1000).enum.filter _).map _).length ≤ 1000
      calc (((data.take 1000).enum.filter
              (fun p => p.2.any Option.isSome)).map
              (fun p => xlsxRowSpec p.1 p.2)).length
          = ((data.take 1000).enum.filter
              (fun p => p.2.any Option.isSome)).length := List.length_map _ _
        _ ≤ (data.take 1000).enum.length := List.length_filter_le _ _
        _ = (data.take 1000).length := List.enum_length
        _ ≤ 1000 := by
            rw [List.length_take]
            omega

/-- C8: the XLSX extractor yields one page per worksheet (in order,
numbered from 1); each page is titled with the sheet name, starts with a
level-2 heading holding the sheet name, and carries at most one further
block — a table with at most 1000 rows whose rows are exactly the
1000-capped used range with all-empty rows dropped, the cells of source
row 0 flagged as header, and the table's header flag set. -/
theorem c8_xlsx_structure :
    (∀ wb : List Worksheet, (xlsxExtractPages wb).length = wb.length) ∧
    (∀ (wb : List Worksheet) (i : Nat) (sheet : Worksheet),
        wb[i]? = some sheet →
        (xlsxExtractPages wb)[i]? = some (xlsxExtractSheet sheet (i + 1))) ∧
    (∀ (sheet : Worksheet) (n : Nat),
        (xlsxExtractSheet sheet n).page_number = n ∧
        (xlsxExtractSheet sheet n).title = some sheet.name ∧
        (xlsxExtractSheet sheet n).blocks.head? = some (Block.heading
          { level := 2, text := sheet.name,
            direction := detectDirection sheet.name,
            position_hint := some ("sheet_" ++ natToString n) }) ∧
        (xlsxExtractSheet sheet n).blocks.length ≤ 2 ∧
        (∀ tb : TableBlock,
            Block.table tb ∈ (xlsxExtractSheet sheet n).blocks →
            tb.rows.length ≤ 1000 ∧ tb.has_header = true ∧
            tb.rows = ((sheet.data.take 1000).enum.filter
                         (fun p => p.2.any Option.isSome)).map
                        (fun p => xlsxRowSpec p.1 p.2))) := by
  refine ⟨?_, ?_, ?_⟩
  · intro wb
    simp [xlsxExtractPages]
  · intro wb i sheet h
    simp [xlsxExtractPages, List.getElem?_map, List.getElem?_enum, h]
  · intro sheet n
    refine ⟨rfl, rfl, rfl, ?_, ?_⟩
    · show (xlsxExtractSheet sheet n).blocks.length ≤ 2
      unfold xlsxExtractSheet
      dsimp only
      rcases hxt : xlsxExtractTable sheet.data n with _ | tb <;> simp [hxt]
    · intro tb htb
      unfold xlsxExtractSheet at htb
      dsimp only at htb
      rcases hxt : xlsxExtractTable sheet.data n with _ | tb' <;>
        rw [hxt] at htb <;> simp only [List.mem_cons, List.mem_singleton] at htb
      · rcases htb with h | h <;> simp at h
      · rcases htb with h | h
        · simp at h
        · rcases h with h | h
          · simp only [Block.table.injEq] at h
            subst h
            exact xlsxExtractTable_props sheet.data n tb hxt
          · simp at h

/-- C8 (witness): the statement instantiated on a one-sheet workbook
containing a single non-empty cell. -/
theorem c8_xlsx_structure_witness :
    ((xlsxExtractPages [⟨"S", [[some "v"]]⟩])[0]? =
      some (xlsxExtractSheet ⟨"S", [[some "v"]]⟩ 1)) ∧
    (xlsxSampleTable.rows.length ≤ 1000 ∧
      xlsxSampleTable.has_header = true ∧
      xlsxSampleTable.rows =
        ((([[some "v"]] : List (List (Option String))).take 1000).enum.filter
            (fun p => p.2.any Option.isSome)).map
          (fun p => xlsxRowSpec p.1 p.2)) :=
  ⟨c8_xlsx_structure.2.1 [⟨"S", [[some "v"]]⟩] 0 ⟨"S", [[some "v"]]⟩
      (by decide),
   (c8_xlsx_structure.2.2 ⟨"S", [[some "v"]]⟩ 1).2.2.2.2 xlsxSampleTable
      (by decide)⟩

/-- C7: extracting the Markdown input `"# Hi\n\n- a\n- b\n"` produces a
single page whose blocks are exactly a level-1 heading "Hi" followed by
an unordered list with items ["a", "b"]. -/
theorem c7_markdown_heading_then_list :
    mdExtractPage "# Hi\n\n- a\n- b\n" =
      { page_number := 1,
        blocks :=
          [Block.heading { direction := .ltr, level := 1, text := "Hi" },
           Block.list { direction := .ltr, items := ["a", "b"],
                        is_ordered := false }],
        direction := .ltr } := by
  decide

/-! ### Line-counting lemmas for the Markdown table rendering (C6) -/

theorem strData_append (a b : String) : (a ++ b).data = a.data ++ b.data :=
  rfl

theorem splitOnPred_ne_nil (p : Char → Bool) (l : List Char) :
    splitOnPred p l ≠ [] := by
  cases l with
  | nil => simp [splitOnPred]
  | cons x rest =>
    unfold splitOnPred
    dsimp only
    split
    · simp
    · split <;> simp

theorem splitOnPred_length (p : Char → Bool) (l : List Char) :
    (splitOnPred p l).length = l.countP p + 1 := by
  induction l with
  | nil => rfl
  | cons x rest ih =>
    unfold splitOnPred
    dsimp only
    split
    · next hx =>
      simp [List.countP_cons, hx, ih]
    · next hx =>
      rcases hr : splitOnPred p rest with _ | ⟨h0, t⟩
      · exact absurd hr (splitOnPred_ne_nil p rest)
      · rw [hr] at ih
        simp only [List.length_cons] at ih
        simp [List.countP_cons, hx, ih]

theorem lineCount_eq (s : String) : lineCount s = countNl s + 1 := by
  unfold lineCount countNl strSplitOnChar
  rw [List.length_map, splitOnPred_length]

theorem countNl_append (a b : String) :
    countNl (a ++ b) = countNl a + countNl b := by
  unfold countNl
  rw [strData_append, List.countP_append]

/-- Joining newline-free parts with a newline-free separator yields a
newline-free string. -/
theorem countNl_joinWith_zero (sep : String) (hsep : countNl sep = 0)
    (parts : List String) (h : ∀ part ∈ parts, countNl part = 0) :
    countNl (joinWith sep parts) = 0 := by
  induction parts with
  | nil => rfl
  | cons p rest ih =>
    cases rest with
    | nil => exact h p (by simp)
    | cons q rest' =>
      rw [joinWith, countNl_append, countNl_append]
      · rw [h p (by simp), hsep, ih (fun part hp => h part (by simp [hp]))]
      · simp

/-- Joining `n` newline-free parts with `"\n"` yields `n - 1` newlines. -/
theorem countNl_joinWith_nl (parts : List String)
    (h : ∀ part ∈ parts, countNl part = 0) :
    countNl (joinWith "\n" parts) = parts.length - 1 := by
  induction parts with
  | nil => rfl
  | cons p rest ih =>
    cases rest with
    | nil =>
      rw [joinWith, h p (by simp)]
      rfl
    | cons q rest' =>
      rw [joinWith, countNl_append, countNl_append]
      · rw [h p (by simp), ih (fun part hp => h part (by simp [hp])),
          show countNl "\n" = 1 from by decide]
        simp only [List.length_cons]
        omega
      · simp

/-- The flatMap over enumerated rows emits 2 lines for index 0 and 1
line otherwise, giving `rows + 1` parts in total. -/
theorem c6_rowLines_length (rows : List TableRow) (n : Nat)
    (f : Nat × TableRow → String) (g : Nat × TableRow → String) :
    ((List.enumFrom (n + 1) rows).flatMap
        (fun p => if p.1 = 0 then [f p, g p] else [f p])).length
      = rows.length := by
  induction rows generalizing n with
  | nil => rfl
  | cons r rest ih =>
    rw [List.enumFrom_cons, List.flatMap_cons]
    simp only [Nat.succ_ne_zero, if_false, List.length_append,
      List.length_cons, List.length_nil]
    rw [ih (n + 1)]
    omega

theorem c6_rowLines_length_full (rows : List TableRow)
    (f g : Nat × TableRow → String) (hne : rows ≠ []) :
    ((rows.enum.flatMap
        (fun p => if p.1 = 0 then [f p, g p] else [f p])).length)
      = rows.length + 1 := by
  cases rows with
  | nil => exact absurd rfl hne
  | cons r rest =>
    rw [List.enum_cons, List.flatMap_cons]
    simp only [show ((0 : Nat), r).1 = 0 from rfl, if_pos, List.length_append,
      List.length_cons, List.length_nil, List.length_map]
    rw [c6_rowLines_length rest 0 f g]
    omega

/-- C6 (counterexample): the claim "a non-empty caption-less table of R
rows renders as exactly R+1 Markdown lines" fails when a cell content
itself contains a newline: a 1-row table renders as 3 lines, not 2. -/
theorem c6_cell_newline_breaks_count :
    lineCount (mdConvertTable c6CexTable) = 3 ∧
      c6CexTable.rows.length + 1 = 2 ∧ (3 : Nat) ≠ 2 :=
  ⟨by decide, by decide, by decide⟩

/-- C6 (amended): for every non-empty `TableBlock` with `R` rows, no
caption, and newline-free cell contents, the Markdown converter renders
it as exactly `R + 1` lines: one line per row plus the separator line
emitted immediately after the first row. -/
theorem c6_table_line_count (tb : TableBlock)
    (hrows : tb.rows ≠ []) (hcap : tb.caption = none)
    (hnl : ∀ row ∈ tb.rows, ∀ cell ∈ row.cells,
        ∀ c ∈ cell.content.data, c ≠ '\n') :
    lineCount (mdConvertTable tb) = tb.rows.length + 1 := by
  unfold mdConvertTable
  rw [if_neg hrows]
  dsimp only
  rw [hcap]
  dsimp only
  rw [List.nil_append, lineCount_eq]
  have hparts : ∀ part ∈ tb.rows.enum.flatMap (fun p =>
      let cells := (List.range
          ((tb.rows.map (fun r => r.cells.length)).foldr max 0)).map (fun i =>
        match p.2.cells[i]? with
        | some cell => cell.content
        | none => "")
      let line := "| " ++ joinWith " | " cells ++ " |"
      if p.1 = 0 then
        [line,
         "| " ++ joinWith " | "
           (cells.map (fun c => (⟨List.replicate (max 3 c.length) '-'⟩ : String)))
           ++ " |"]
      else [line]), countNl part = 0 := by
    intro part hpart
    rw [List.mem_flatMap] at hpart
    obtain ⟨p, hp, hmem⟩ := hpart
    have hcells : ∀ s ∈ (List.range
        ((tb.rows.map (fun r => r.cells.length)).foldr max 0)).map (fun i =>
          match p.2.cells[i]? with
          | some cell => cell.content
          | none => ""), countNl s = 0 := by
      intro s hs
      rw [List.mem_map] at hs
      obtain ⟨i, -, hi⟩ := hs
      rcases hcell : p.2.cells[i]? with _ | cell
      · rw [hcell] at hi
        subst hi
        rfl
      · rw [hcell] at hi
        subst hi
        have hcm : cell ∈ p.2.cells := List.getElem?_mem hcell
        have hrm : p.2 ∈ tb.rows :=
          List.getElem?_mem (List.mem_enum_iff_getElem?.mp hp)
        exact List.countP_eq_zero.mpr (fun c hc => by
          simpa using hnl p.2 hrm cell hcm c hc)
    dsimp only at hmem
    have hline : countNl ("| " ++ joinWith " | " ((List.range
        ((tb.rows.map (fun r => r.cells.length)).foldr max 0)).map (fun i =>
          match p.2.cells[i]? with
          | some cell => cell.content
          | none => "")) ++ " |") = 0 := by
      rw [countNl_append, countNl_append]
      rw [countNl_joinWith_zero " | " (by decide) _ hcells]
      decide
    split at hmem
    · simp only [List.mem_cons, List.not_mem_nil, or_false] at hmem
      rcases hmem with h | h
      · exact h ▸ hline
      · subst h
        rw [countNl_append, countNl_append]
        rw [countNl_joinWith_zero " | " (by decide)]
        · decide
        · intro q hq
          rw [List.mem_map] at hq
          obtain ⟨c, -, hc⟩ := hq
          subst hc
          exact List.countP_eq_zero.mpr (fun ch hch => by
            have := List.eq_of_mem_replicate hch
            simp [this])
    · simp only [List.mem_cons, List.not_mem_nil, or_false] at hmem
      exact hmem ▸ hline
  rw [countNl_joinWith_nl _ hparts, c6_rowLines_length_full tb.rows _ _ hrows]
  omega

/-- C6 (witness): the amended statement at a caption-less 2×3 table:
3 output lines. -/
theorem c6_table_line_count_witness :
    lineCount (mdConvertTable c6SampleTable) =
      c6SampleTable.rows.length + 1 :=
  c6_table_line_count c6SampleTable (by decide) (by decide) (by decide)

/-- C9: every query/export/setter operation of the orchestrator fails
with the no-document-loaded error before any successful load (the
initial state holds no document, and a `none` document forces the error
on `export`, `get_text`, `get_links`, `get_images`, `get_tables`,
`get_metadata`, `get_summary`, `set_title`, `set_direction`); and with a
document loaded, `export` on a format outside the converter map fails
with the unsupported-format error whose message contains every supported
format name. -/
theorem c9_agent_error_guards :
    (({} : AgentState).document = none) ∧
    (∀ st : AgentState, st.document = none →
      agentGetText st = .error (.valueError noDocMsg) ∧
      agentGetLinks st = .error (.valueError noDocMsg) ∧
      agentGetImages st = .error (.valueError noDocMsg) ∧
      agentGetTables st = .error (.valueError noDocMsg) ∧
      agentGetMetadata st = .error (.valueError noDocMsg) ∧
      agentGetSummary st = .error (.valueError noDocMsg) ∧
      (∀ title, agentSetTitle title st = .error (.valueError noDocMsg)) ∧
      (∀ dir, agentSetDirection dir st = .error (.valueError noDocMsg)) ∧
      (∀ convert fmt,
        agentExport convert fmt st = .error (.valueError noDocMsg))) ∧
    (∀ (convert : String → Document → String) (fmt : String)
        (st : AgentState) (d : Document),
      st.document = some d → strLower fmt ∉ converterKeys →
      agentExport convert fmt st =
        .error (.valueError (unsupportedExportMsg (strLower fmt)))) ∧
    (∀ fmt : String, ∀ k ∈ converterKeys,
      k.data <:+: (unsupportedExportMsg fmt).data) := by
  refine ⟨rfl, ?_, ?_, ?_⟩
  · intro st h
    refine ⟨?_, ?_, ?_, ?_, ?_, ?_, ?_, ?_, ?_⟩ <;>
      simp [agentGetText, agentGetLinks, agentGetImages, agentGetTables,
        agentGetMetadata, agentGetSummary, agentSetTitle,
        agentSetDirection, agentExport, h]
  · intro convert fmt st d hdoc hfmt
    simp [agentExport, hdoc, hfmt]
  · intro fmt k hk
    have hj : k.data <:+: (joinWith ", " converterKeys).data := by
      fin_cases hk <;> decide
    have hsplit : (unsupportedExportMsg fmt).data =
        ("Unsupported export format: " ++ fmt
          ++ ". Supported formats: ").data
          ++ (joinWith ", " converterKeys).data := rfl
    rw [hsplit]
    exact hj.trans (List.suffix_append _ _).isInfix

/-- C9 (witness): the guards instantiated at the initial state and at a
one-document state with the unsupported format "pdf". -/
theorem c9_agent_error_guards_witness :
    (agentGetText {} = .error (.valueError noDocMsg) ∧
      agentExport (fun _ _ => "") "json2" {} =
        .error (.valueError noDocMsg)) ∧
    agentExport (fun _ _ => "") "pdf" { document := some {} } =
      .error (.valueError (unsupportedExportMsg (strLower "pdf"))) ∧
    ("html".data <:+: (unsupportedExportMsg "pdf").data) :=
  ⟨⟨(c9_agent_error_guards.2.1 {} rfl).1,
    (c9_agent_error_guards.2.1 {} rfl).2.2.2.2.2.2.2.2 (fun _ _ => "")
      "json2"⟩,
   c9_agent_error_guards.2.2.1 (fun _ _ => "") "pdf" { document := some {} }
     {} rfl (by decide),
   c9_agent_error_guards.2.2.2 "pdf" "html" (by decide)⟩

/-- Unfolding equation of `linksWFb` when both offsets are present. -/
theorem linksWFb_cons_some {lo n s e : Nat} {l : Link} {rest : List Link}
    (hs : l.start_index = some s) (he : l.end_index = some e) :
    linksWFb lo n (l :: rest)
      = (decide (lo ≤ s) && decide (s ≤ e) && decide (e ≤ n)
          && linksWFb e n rest) := by
  conv_lhs => unfold linksWFb
  rw [hs, he]

/-- A link without a start offset is not well-formed. -/
theorem linksWFb_cons_noStart {lo n : Nat} {l : Link} {rest : List Link}
    (hs : l.start_index = none) : linksWFb lo n (l :: rest) = false := by
  unfold linksWFb
  rw [hs]

/-- A link without an end offset is not well-formed. -/
theorem linksWFb_cons_noEnd {lo n : Nat} {l : Link} {rest : List Link}
    (he : l.end_index = none) : linksWFb lo n (l :: rest) = false := by
  unfold linksWFb
  rw [he]
  rcases l.start_index with _ | s <;> rfl

/-- Helper: link well-formedness is monotone in the lower bound. -/
theorem linksWFb_mono (lo' lo n : Nat) (links : List Link)
    (hle : lo' ≤ lo) (h : linksWFb lo n links = true) :
    linksWFb lo' n links = true := by
  cases links with
  | nil => rfl
  | cons l rest =>
    rcases hs : l.start_index with _ | s
    · rw [linksWFb_cons_noStart hs] at h
      exact absurd h (by simp)
    rcases he : l.end_index with _ | e
    · rw [linksWFb_cons_noEnd he] at h
      exact absurd h (by simp)
    rw [linksWFb_cons_some hs he] at h ⊢
    simp only [Bool.and_eq_true, decide_eq_true_eq] at h ⊢
    obtain ⟨⟨⟨hlos, hse⟩, hen⟩, hrest⟩ := h
    exact ⟨⟨⟨by omega, hse⟩, hen⟩, hrest⟩

/-- The character-level effect of one splice. -/
theorem spliceStep_data (t : String) (l : Link) (s e : Nat)
    (hs : l.start_index = some s) (he : l.end_index = some e) :
    (spliceStep t l).data
      = t.data.take s ++ (linkAnchor l).data ++ t.data.drop e := by
  unfold spliceStep
  rw [hs, he]
  rfl

/-- Helper: under well-formed (present, ordered, non-overlapping,
in-bounds) offsets, the reverse-order splice loop `_apply_links`
computes exactly the declarative interleaving of text segments and
anchor elements. -/
theorem applyLinks_eq_interleave (t : String) (links : List Link)
    (h : linksWFb 0 t.data.length links = true) :
    (applyLinks t links).data = interleaveFrom t.data 0 links := by
  unfold applyLinks
  rw [List.foldl_reverse]
  induction links with
  | nil => simp [interleaveFrom]
  | cons l rest ih =>
    rcases hs : l.start_index with _ | s
    · rw [linksWFb_cons_noStart hs] at h
      exact absurd h (by simp)
    rcases he : l.end_index with _ | e
    · rw [linksWFb_cons_noEnd he] at h
      exact absurd h (by simp)
    rw [linksWFb_cons_some hs he] at h
    simp only [Bool.and_eq_true, decide_eq_true_eq] at h
    obtain ⟨⟨⟨h0s, hse⟩, hen⟩, hrest⟩ := h
    have ihh := ih (linksWFb_mono 0 e t.data.length rest (Nat.zero_le e) hrest)
    rw [List.foldr_cons]
    rw [spliceStep_data _ l s e hs he, ihh]
    cases rest with
    | nil =>
      simp only [interleaveFrom, List.drop_zero, Nat.sub_zero, hs, he,
        Option.getD_some]
    | cons l2 rest2 =>
      rcases hs2 : l2.start_index with _ | s2
      · rw [linksWFb_cons_noStart hs2] at hrest
        exact absurd hrest (by simp)
      rcases he2 : l2.end_index with _ | e2
      · rw [linksWFb_cons_noEnd he2] at hrest
        exact absurd hrest (by simp)
      rw [linksWFb_cons_some hs2 he2] at hrest
      simp only [Bool.and_eq_true, decide_eq_true_eq] at hrest
      obtain ⟨⟨⟨hes2, hs2e2⟩, he2n⟩, -⟩ := hrest
      have hlen2 : (t.data.take s2).length = s2 := by
        rw [List.length_take]
        omega
      conv_lhs => rw [interleaveFrom]
      conv_rhs => rw [interleaveFrom, interleaveFrom]
      simp only [hs, he, hs2, he2, Option.getD_some, List.drop_zero,
        Nat.sub_zero]
      rw [List.take_append_of_le_length
          (show s ≤ (t.data.take s2 ++ (linkAnchor l2).data).length by
            rw [List.length_append, hlen2]
            omega),
        List.take_append_of_le_length (by omega : s ≤ (t.data.take s2).length),
        List.take_take, min_eq_left (by omega : s ≤ s2),
        List.drop_append_of_le_length
          (show e ≤ (t.data.take s2 ++ (linkAnchor l2).data).length by
            rw [List.length_append, hlen2]
            omega),
        List.drop_append_of_le_length (by omega : e ≤ (t.data.take s2).length),
        List.drop_take]

/-- C5 (counterexample): the anchor does not replace the characters of
the **original** text at `[start_index, end_index)`: for block text
"&ab" with a link spanning `[1, 3)` (the characters "ab"), the splice
operates on the escaped text "&amp;ab", mangling the entity and leaving
"ab" in the output instead of producing escaped-before ++ anchor. -/
theorem c5_splice_not_on_original_text :
    applyLinks (escapeHtml "&ab") [c5CexLink] = "&<a href=\"u\">x</a>p;ab"
      ∧ escapeHtml "&" ++ linkAnchor c5CexLink ++ escapeHtml ""
          ≠ "&<a href=\"u\">x</a>p;ab"
      ∧ "ab".data <:+: ("&<a href=\"u\">x</a>p;ab").data :=
  ⟨by decide, by decide, by decide⟩

/-- C5 (amended): the splice offsets are interpreted in the
HTML-**escaped** block text: for links with present, ordered,
non-overlapping, in-bounds offsets, the reverse-order splice loop
replaces exactly the characters `[start_index, end_index)` of the
escaped text by each link's anchor element, preserving the surrounding
escaped text in its original order; `_convert_paragraph` applies it to
`escapeHtml block.text`. -/
theorem c5_splice_on_escaped_text :
    (∀ (t : String) (links : List Link),
        linksWFb 0 t.data.length links = true →
        (applyLinks t links).data = interleaveFrom t.data 0 links) ∧
    (∀ b : ParagraphBlock,
        b.links ≠ [] → b.is_bold = false → b.is_italic = false →
        convertParagraph b =
          "<p" ++ getDirectionAttr b.direction ++ ">"
            ++ applyLinks (escapeHtml b.text) b.links ++ "</p>") := by
  refine ⟨applyLinks_eq_interleave, ?_⟩
  intro b hl hb hi
  unfold convertParagraph
  rw [hb, hi]
  dsimp only
  rw [if_pos hl]
  simp

/-- C5 (witness): the amended statement at a concrete two-link text and
a concrete paragraph block. -/
theorem c5_splice_on_escaped_text_witness :
    ((applyLinks "Hello world" c5WitnessLinks).data
        = interleaveFrom "Hello world".data 0 c5WitnessLinks) ∧
    convertParagraph c5WitnessPara =
      "<p" ++ getDirectionAttr c5WitnessPara.direction ++ ">"
        ++ applyLinks (escapeHtml c5WitnessPara.text) c5WitnessPara.links
        ++ "</p>" :=
  ⟨c5_splice_on_escaped_text.1 "Hello world" c5WitnessLinks (by decide),
   c5_splice_on_escaped_text.2 c5WitnessPara (by decide) rfl rfl⟩

/-- C10: a failed `load` (missing path, unsupported extension, or an
extractor exception) leaves the agent's loaded document and source path
unchanged, so every subsequent query and export operation behaves
exactly as before the failed load. -/
theorem c10_load_failure_preserves_state
    (exists_ : String → Bool) (extractRes : String → Except PyErr Document)
    (path : String) (st : AgentState) (e : PyErr)
    (h : (agentLoad exists_ extractRes path st).1 = .error e) :
    (agentLoad exists_ extractRes path st).2 = st ∧
    agentGetText (agentLoad exists_ extractRes path st).2 =
      agentGetText st ∧
    agentGetLinks (agentLoad exists_ extractRes path st).2 =
      agentGetLinks st ∧
    agentGetImages (agentLoad exists_ extractRes path st).2 =
      agentGetImages st ∧
    agentGetTables (agentLoad exists_ extractRes path st).2 =
      agentGetTables st ∧
    agentGetMetadata (agentLoad exists_ extractRes path st).2 =
      agentGetMetadata st ∧
    agentGetSummary (agentLoad exists_ extractRes path st).2 =
      agentGetSummary st ∧
    (∀ convert fmt,
      agentExport convert fmt (agentLoad exists_ extractRes path st).2 =
        agentExport convert fmt st) := by
  have h2 : (agentLoad exists_ extractRes path st).2 = st := by
    unfold agentLoad at h ⊢
    split at h
    · next hc => rw [if_pos hc]
    · next hc =>
      rw [if_neg hc]
      dsimp only at h ⊢
      split at h
      · next hk => rw [if_pos hk]
      · next hk =>
        rw [if_neg hk]
        split at h
        · rfl
        · simp at h
  exact ⟨h2, by rw [h2], by rw [h2], by rw [h2], by rw [h2], by rw [h2],
    by rw [h2], fun convert fmt => by rw [h2]⟩

/-- C10 (witness): the statement instantiated on a load of a missing
file from the initial state. -/
theorem c10_load_failure_preserves_state_witness :
    (agentLoad (fun _ => false)
      (fun _ => Except.error (.valueError "parse error")) "a.pdf" {}).2
      = ({} : AgentState) :=
  (c10_load_failure_preserves_state (fun _ => false)
    (fun _ => Except.error (.valueError "parse error")) "a.pdf" {}
    (.fileNotFound ("File not found: " ++ "a.pdf")) rfl).1

end Tran
namespace Tran

/-! ### Scanner lemmas (C4) -/

theorem scanSc_append (a b : List Char) (st : Nat) :
    scanSc st (a ++ b) = scanSc (scanSc st a) b := by
  induction a generalizing st with
  | nil => rfl
  | cons c rest ih =>
    rw [List.cons_append]
    show scanSc (scStep st c) (rest ++ b) = _
    rw [ih]
    rfl

theorem scStep_absorb (c : Char) : scStep 3 c = 3 := by
  unfold scStep
  simp

theorem scanSc_absorb (l : List Char) : scanSc 3 l = 3 := by
  induction l with
  | nil => rfl
  | cons c rest ih =>
    show scanSc (scStep 3 c) rest = 3
    rw [scStep_absorb]
    exact ih

theorem scanSc_pat (st : Nat) (l : List Char) :
    scanSc st ('<' :: 's' :: 'c' :: l) = 3 := by
  by_cases h : st = 3
  · subst h
    exact scanSc_absorb _
  · show scanSc (scStep (scStep (scStep st '<') 's') 'c') l = 3
    have h1 : scStep st '<' = 1 := by
      unfold scStep
      rw [if_neg h]
      simp
    rw [h1, show scStep 1 's' = 2 from by decide,
      show scStep 2 'c' = 3 from by decide]
    exact scanSc_absorb l

theorem scanSc_three_of_pat (l : List Char)
    (h : ['<', 's', 'c'] <:+: l) : scanSc 0 l = 3 := by
  obtain ⟨u, v, rfl⟩ := h
  rw [show u ++ ['<', 's', 'c'] ++ v = u ++ ('<' :: 's' :: 'c' :: v) by simp,
    scanSc_append]
  exact scanSc_pat _ v

theorem scanSc_zero_of_no_lt (l : List Char) (h : ∀ c ∈ l, c ≠ '<') :
    scanSc 0 l = 0 := by
  induction l with
  | nil => rfl
  | cons c rest ih =>
    show scanSc (scStep 0 c) rest = 0
    have hc : scStep 0 c = 0 := by
      unfold scStep
      rw [if_neg (by decide), if_neg (by simpa using h c (by simp))]
      simp
    rw [hc]
    exact ih (fun x hx => h x (by simp [hx]))

/-- A singleton-extended suffix: `p ++ [d]` ends `l ++ [c]` iff the last
characters agree and `p` ends `l`. -/
theorem suffix_concat_concat (p l : List Char) (d c : Char) :
    (p ++ [d]) <:+ (l ++ [c]) ↔ d = c ∧ p <:+ l := by
  constructor
  · rintro ⟨u, hu⟩
    rw [← List.append_assoc] at hu
    have h1 := List.append_inj' hu rfl
    obtain ⟨h2, h3⟩ := h1
    simp at h3
    exact ⟨h3, ⟨u, h2⟩⟩
  · rintro ⟨rfl, u, hu⟩
    exact ⟨u, by rw [← List.append_assoc, hu]⟩

theorem singleton_suffix_concat (l : List Char) (d c : Char) :
    [d] <:+ (l ++ [c]) ↔ d = c := by
  have h := suffix_concat_concat [] l d c
  simp at h
  simpa using h

theorem infix_concat_iff (p l : List Char) (c : Char) :
    p <:+: (l ++ [c]) ↔ p <:+: l ∨ p <:+ (l ++ [c]) := by
  constructor
  · rintro ⟨u, v, huv⟩
    rcases List.eq_nil_or_concat v with rfl | ⟨v', c', rfl⟩
    · right
      exact ⟨u, by simpa using huv⟩
    · left
      rw [List.concat_eq_append,
        show u ++ p ++ (v' ++ [c']) = (u ++ p ++ v') ++ [c'] by simp] at huv
      have h1 := List.append_inj' huv.symm rfl
      obtain ⟨h2, -⟩ := h1
      exact ⟨u, v', h2.symm⟩
  · rintro (h | h)
    · exact h.trans (List.prefix_append l [c]).isInfix
    · exact h.isInfix

end Tran

namespace Tran

theorem scstate_concat (l : List Char) (c : Char) :
    scstate (l ++ [c]) = scStep (scstate l) c := by
  by_cases h3 : ['<', 's', 'c'] <:+: l
  · have h3' : ['<', 's', 'c'] <:+: (l ++ [c]) :=
      h3.trans (List.prefix_append l [c]).isInfix
    rw [scstate, if_pos h3', scstate, if_pos h3, scStep_absorb]
  · have hinf : (['<', 's', 'c'] <:+: (l ++ [c])) ↔
        ['<', 's', 'c'] <:+ (l ++ [c]) := by
      rw [infix_concat_iff]
      simp [h3]
    by_cases h2 : ['<', 's'] <:+ l
    · have hs2 : scstate l = 2 := by rw [scstate, if_neg h3, if_pos h2]
      rw [hs2]
      by_cases hc : c = 'c'
      · subst hc
        have hsuf : ['<', 's', 'c'] <:+ (l ++ ['c']) :=
          (suffix_concat_concat ['<', 's'] l 'c' 'c').mpr ⟨rfl, h2⟩
        rw [scstate, if_pos (hinf.mpr hsuf)]
        decide
      · by_cases hlt : c = '<'
        · subst hlt
          have e3 : ¬ ['<', 's', 'c'] <:+: (l ++ ['<']) := by
            rw [hinf]
            intro h
            exact absurd ((suffix_concat_concat ['<', 's'] l 'c' '<').mp h).1
              (by decide)
          have e2 : ¬ ['<', 's'] <:+ (l ++ ['<']) := by
            intro h
            exact absurd ((suffix_concat_concat ['<'] l 's' '<').mp h).1
              (by decide)
          have e1 : ['<'] <:+ (l ++ ['<']) :=
            (singleton_suffix_concat l '<' '<').mpr rfl
          rw [scstate, if_neg e3, if_neg e2, if_pos e1]
          decide
        · have hl1 : ¬ ['<'] <:+ l := by
            intro h1
            rcases List.suffix_or_suffix_of_suffix h1 h2 with h | h
            · exact absurd h (by decide)
            · exact absurd h (by decide)
          have e3 : ¬ ['<', 's', 'c'] <:+: (l ++ [c]) := by
            rw [hinf]
            intro h
            exact hc ((suffix_concat_concat ['<', 's'] l 'c' c).mp h).1.symm
          have e2 : ¬ ['<', 's'] <:+ (l ++ [c]) := by
            intro h
            exact hl1 ((suffix_concat_concat ['<'] l 's' c).mp h).2
          have e1 : ¬ ['<'] <:+ (l ++ [c]) := by
            intro h
            exact hlt ((singleton_suffix_concat l '<' c).mp h).symm
          rw [scstate, if_neg e3, if_neg e2, if_neg e1]
          unfold scStep
          rw [if_neg (by decide), if_neg hlt,
            if_neg (by simp), if_neg (by simp [hc])]
    · by_cases h1 : ['<'] <:+ l
      · have hs1 : scstate l = 1 := by
          rw [scstate, if_neg h3, if_neg h2, if_pos h1]
        rw [hs1]
        by_cases hlt : c = '<'
        · subst hlt
          have e3 : ¬ ['<', 's', 'c'] <:+: (l ++ ['<']) := by
            rw [hinf]
            intro h
            exact absurd ((suffix_concat_concat ['<', 's'] l 'c' '<').mp h).1
              (by decide)
          have e2 : ¬ ['<', 's'] <:+ (l ++ ['<']) := by
            intro h
            exact absurd ((suffix_concat_concat ['<'] l 's' '<').mp h).1
              (by decide)
          have e1 : ['<'] <:+ (l ++ ['<']) :=
            (singleton_suffix_concat l '<' '<').mpr rfl
          rw [scstate, if_neg e3, if_neg e2, if_pos e1]
          decide
        · by_cases hs : c = 's'
          · subst hs
            have e3 : ¬ ['<', 's', 'c'] <:+: (l ++ ['s']) := by
              rw [hinf]
              intro h
              exact absurd
                ((suffix_concat_concat ['<', 's'] l 'c' 's').mp h).1
                (by decide)
            have e2 : ['<', 's'] <:+ (l ++ ['s']) :=
              (suffix_concat_concat ['<'] l 's' 's').mpr ⟨rfl, h1⟩
            rw [scstate, if_neg e3, if_pos e2]
            decide
          · have e3 : ¬ ['<', 's', 'c'] <:+: (l ++ [c]) := by
              rw [hinf]
              intro h
              exact h2 ((suffix_concat_concat ['<', 's'] l 'c' c).mp h).2
            have e2 : ¬ ['<', 's'] <:+ (l ++ [c]) := by
              intro h
              exact hs ((suffix_concat_concat ['<'] l 's' c).mp h).1.symm
            have e1 : ¬ ['<'] <:+ (l ++ [c]) := by
              intro h
              exact hlt ((singleton_suffix_concat l '<' c).mp h).symm
            rw [scstate, if_neg e3, if_neg e2, if_neg e1]
            unfold scStep
            rw [if_neg (by decide), if_neg hlt,
              if_neg (by simp [hs]), if_neg (by simp)]
      · have hs0 : scstate l = 0 := by
          rw [scstate, if_neg h3, if_neg h2, if_neg h1]
        rw [hs0]
        by_cases hlt : c = '<'
        · subst hlt
          have e3 : ¬ ['<', 's', 'c'] <:+: (l ++ ['<']) := by
            rw [hinf]
            intro h
            exact absurd ((suffix_concat_concat ['<', 's'] l 'c' '<').mp h).1
              (by decide)
          have e2 : ¬ ['<', 's'] <:+ (l ++ ['<']) := by
            intro h
            exact absurd ((suffix_concat_concat ['<'] l 's' '<').mp h).1
              (by decide)
          have e1 : ['<'] <:+ (l ++ ['<']) :=
            (singleton_suffix_concat l '<' '<').mpr rfl
          rw [scstate, if_neg e3, if_neg e2, if_pos e1]
          decide
        · have e3 : ¬ ['<', 's', 'c'] <:+: (l ++ [c]) := by
            rw [hinf]
            intro h
            exact h2 ((suffix_concat_concat ['<', 's'] l 'c' c).mp h).2
          have e2 : ¬ ['<', 's'] <:+ (l ++ [c]) := by
            intro h
            exact h1 ((suffix_concat_concat ['<'] l 's' c).mp h).2
          have e1 : ¬ ['<'] <:+ (l ++ [c]) := by
            intro h
            exact hlt ((singleton_suffix_concat l '<' c).mp h).symm
          rw [scstate, if_neg e3, if_neg e2, if_neg e1]
          unfold scStep
          rw [if_neg (by decide), if_neg hlt,
            if_neg (by simp), if_neg (by simp)]

theorem scanSc_eq_scstate (l : List Char) : scanSc 0 l = scstate l := by
  induction l using List.reverseRecOn with
  | nil => decide
  | append_singleton l c ih =>
    rw [scanSc_append, ih, scstate_concat]
    rfl

end Tran

namespace Tran

theorem scstate_zero_elim (l : List Char) (h : scstate l = 0) :
    ¬ (['<', 's', 'c'] <:+: l) ∧ ¬ (['<', 's'] <:+ l) ∧ ¬ (['<'] <:+ l) := by
  unfold scstate at h
  split_ifs at h with h3 h2 h1
  exact ⟨h3, h2, h1⟩

theorem scstate_zero_intro (l : List Char)
    (h3 : ¬ (['<', 's', 'c'] <:+: l)) (h2 : ¬ (['<', 's'] <:+ l))
    (h1 : ¬ (['<'] <:+ l)) : scstate l = 0 := by
  unfold scstate
  rw [if_neg h3, if_neg h2, if_neg h1]

theorem scanSc_take_ne_three (l : List Char) (n : Nat)
    (h : scanSc 0 l ≠ 3) : scanSc 0 (l.take n) ≠ 3 := by
  intro h3
  apply h
  rw [← List.take_append_drop n l, scanSc_append, h3, scanSc_absorb]

theorem scanSc_drop_zero (l : List Char) (n : Nat)
    (h : scanSc 0 l = 0) : scanSc 0 (l.drop n) = 0 := by
  rw [scanSc_eq_scstate] at h ⊢
  obtain ⟨n3, n2, n1⟩ := scstate_zero_elim l h
  have hsuf : l.drop n <:+ l := List.drop_suffix n l
  refine scstate_zero_intro _ ?_ ?_ ?_
  · exact fun hh => n3 (hh.trans hsuf.isInfix)
  · exact fun hh => n2 (hh.trans hsuf)
  · exact fun hh => n1 (hh.trans hsuf)

theorem scan0_append (a b : String) (ha : scan0 a) (hb : scan0 b) :
    scan0 (a ++ b) := by
  unfold scan0 at *
  rw [strData_append, scanSc_append, ha, hb]

theorem scan0_of_no_lt (s : String) (h : ∀ c ∈ s.data, c ≠ '<') :
    scan0 s := scanSc_zero_of_no_lt s.data h

theorem escapeChar_no_lt (a : Char) : ∀ c ∈ escapeChar a, c ≠ '<' := by
  unfold escapeChar
  split_ifs with h1 h2 h3 h4 h5
  · decide
  · decide
  · decide
  · decide
  · decide
  · intro c hc
    simp only [List.mem_singleton] at hc
    subst hc
    exact h2

theorem escapeHtml_no_lt (s : String) :
    ∀ c ∈ (escapeHtml s).data, c ≠ '<' := by
  intro c hc
  simp only [escapeHtml, List.mem_flatMap] at hc
  obtain ⟨a, _, hca⟩ := hc
  exact escapeChar_no_lt a c hca

theorem scan0_escapeHtml (s : String) : scan0 (escapeHtml s) :=
  scan0_of_no_lt _ (escapeHtml_no_lt s)

theorem digitChar_no_lt (d : Nat) : digitChar d ≠ '<' := by
  unfold digitChar
  split_ifs <;> decide

theorem natDigitsF_no_lt (fuel n : Nat) :
    ∀ c ∈ natDigitsF fuel n, c ≠ '<' := by
  induction fuel generalizing n with
  | zero => intro c hc; simp [natDigitsF] at hc
  | succ fuel ih =>
    intro c hc
    unfold natDigitsF at hc
    split at hc
    · simp only [List.mem_singleton] at hc
      subst hc
      exact digitChar_no_lt n
    · rw [List.mem_append] at hc
      rcases hc with hc | hc
      · exact ih _ c hc
      · simp only [List.mem_singleton] at hc
        subst hc
        exact digitChar_no_lt _

theorem scan0_natToString (n : Nat) : scan0 (natToString n) :=
  scan0_of_no_lt _ (natDigitsF_no_lt (n + 1) n)

theorem scStep_lt (st : Nat) (h : st ≠ 3) : scStep st '<' = 1 := by
  unfold scStep
  rw [if_neg h, if_pos rfl]

theorem scanSc_cons (st : Nat) (c : Char) (rest : List Char) :
    scanSc st (c :: rest) = scanSc (scStep st c) rest := rfl

theorem scanSc_aopen (st : Nat) (h : st ≠ 3) :
    scanSc st "<a href=\"".data = 0 := by
  rw [show "<a href=\"".data = '<' :: "a href=\"".data from by decide,
    scanSc_cons, scStep_lt st h]
  decide

theorem scanSc_linkAnchor (l : Link) (st : Nat) (h : st ≠ 3) :
    scanSc st (linkAnchor l).data = 0 := by
  unfold linkAnchor
  rw [strData_append, strData_append, strData_append, strData_append,
    scanSc_append, scanSc_append, scanSc_append, scanSc_append,
    scanSc_aopen st h,
    scanSc_zero_of_no_lt _ (escapeHtml_no_lt l.url),
    show scanSc 0 "\">".data = 0 from by decide,
    scanSc_zero_of_no_lt _ (escapeHtml_no_lt l.text)]
  decide

theorem scan0_spliceStep (t : String) (l : Link) (h : scan0 t) :
    scan0 (spliceStep t l) := by
  unfold spliceStep
  split
  · next s e hs he =>
    unfold scan0 at h ⊢
    rw [strData_append, strData_append, scanSc_append, scanSc_append]
    have h1 : scanSc 0 (t.data.take s) ≠ 3 :=
      scanSc_take_ne_three t.data s (by rw [h]; decide)
    show scanSc (scanSc (scanSc 0 (t.data.take s)) (linkAnchor l).data)
      (t.data.drop e) = 0
    rw [scanSc_linkAnchor l _ h1]
    exact scanSc_drop_zero t.data e h
  · exact h

theorem scan0_foldl_splice (ls : List Link) (t : String) (h : scan0 t) :
    scan0 (ls.foldl spliceStep t) := by
  induction ls generalizing t with
  | nil => exact h
  | cons a rest ih => exact ih _ (scan0_spliceStep t a h)

theorem scan0_applyLinks (text : String) (links : List Link)
    (h : scan0 text) : scan0 (applyLinks text links) :=
  scan0_foldl_splice links.reverse text h

end Tran

namespace Tran

theorem scan0_of_eq (s : String) (h : scanSc 0 s.data = 0) : scan0 s := h

theorem scan0_joinWith (sep : String) (hs : scan0 sep) :
    ∀ xs : List String, (∀ x ∈ xs, scan0 x) → scan0 (joinWith sep xs)
  | [], _ => rfl
  | [p], hx => hx p (by simp)
  | p :: q :: rest, hx =>
    scan0_append _ _ (scan0_append _ _ (hx p (by simp)) hs)
      (scan0_joinWith sep hs (q :: rest) (fun x hxm => hx x (by simp [hxm])))

theorem scan0_getDirectionAttr (d : TextDirection) :
    scan0 (getDirectionAttr d) := by
  cases d <;> exact scan0_of_eq _ (by decide)

theorem noLtStr_no_lt (s : String) (h : noLtStr s = true) :
    ∀ c ∈ s.data, c ≠ '<' := by
  intro c hc
  rw [noLtStr, List.all_eq_true] at h
  simpa using h c hc

theorem scan0_textOrLinks (text : String) (links : List Link) :
    scan0 (if links ≠ [] then applyLinks (escapeHtml text) links
           else escapeHtml text) := by
  split
  · exact scan0_applyLinks _ _ (scan0_escapeHtml text)
  · exact scan0_escapeHtml text

theorem scan0_convertHeading (b : HeadingBlock) :
    scan0 (convertHeading b) := by
  unfold convertHeading
  dsimp only
  apply scan0_append
  apply scan0_append
  apply scan0_append
  apply scan0_append
  apply scan0_append
  apply scan0_append
  apply scan0_append
  · exact scan0_of_eq _ (by decide)
  · exact scan0_natToString _
  · exact scan0_getDirectionAttr _
  · exact scan0_of_eq _ (by decide)
  · exact scan0_textOrLinks _ _
  · exact scan0_of_eq _ (by decide)
  · exact scan0_natToString _
  · exact scan0_of_eq _ (by decide)

theorem scan0_convertParagraph (b : ParagraphBlock) :
    scan0 (convertParagraph b) := by
  unfold convertParagraph
  dsimp only
  apply scan0_append
  apply scan0_append
  apply scan0_append
  apply scan0_append
  apply scan0_append
  · exact scan0_of_eq _ (by decide)
  · exact scan0_getDirectionAttr _
  · cases b.is_bold <;> cases b.is_italic <;>
      exact scan0_of_eq _ (by decide)
  · exact scan0_of_eq _ (by decide)
  · exact scan0_textOrLinks _ _
  · exact scan0_of_eq _ (by decide)

theorem scan0_convertLink (b : LinkBlock) : scan0 (convertLink b) := by
  unfold convertLink
  apply scan0_append
  apply scan0_append
  apply scan0_append
  apply scan0_append
  · exact scan0_of_eq _ (by decide)
  · exact scan0_escapeHtml _
  · exact scan0_of_eq _ (by decide)
  · exact scan0_escapeHtml _
  · exact scan0_of_eq _ (by decide)

theorem scan0_convertList (b : ListBlock) : scan0 (convertList b) := by
  unfold convertList
  dsimp only
  apply scan0_joinWith _ (scan0_of_eq _ (by decide))
  intro x hx
  simp only [List.cons_append, List.mem_cons, List.mem_append,
    List.mem_singleton, List.mem_map, List.not_mem_nil, or_false,
    false_or] at hx
  rcases hx with rfl | hx | rfl
  · apply scan0_append
    apply scan0_append
    · cases b.is_ordered <;> exact scan0_of_eq _ (by decide)
    · exact scan0_getDirectionAttr _
    · exact scan0_of_eq _ (by decide)
  · obtain ⟨item, _, rfl⟩ := hx
    apply scan0_append
    apply scan0_append
    · exact scan0_of_eq _ (by decide)
    · exact scan0_escapeHtml _
    · exact scan0_of_eq _ (by decide)
  · apply scan0_append
    apply scan0_append
    · exact scan0_of_eq _ (by decide)
    · cases b.is_ordered <;> exact scan0_of_eq _ (by decide)
    · exact scan0_of_eq _ (by decide)

end Tran

namespace Tran

theorem optNoLt (o : Option String)
    (h : (match o with | some s => noLtStr s | none => true) = true) :
    ∀ c ∈ (o.getD "").data, c ≠ '<' := by
  cases o with
  | none => intro c hc; exact absurd hc (List.not_mem_nil c)
  | some s => exact noLtStr_no_lt s h

theorem scan0_convertImage (emb : Bool) (b : ImageBlock)
    (h : imageSrcSafe b = true) : scan0 (convertImage emb b) := by
  rw [imageSrcSafe, Bool.and_eq_true] at h
  obtain ⟨hdat, hpath⟩ := h
  unfold convertImage
  dsimp only
  have hbuild : ∀ src : String, (∀ c ∈ src.data, c ≠ '<') →
      scan0 (joinWith "\n" (["<figure>",
        "<img src=\"" ++ src ++ "\" alt=\""
          ++ escapeHtml (pyOrS b.alt_text (pyOrS b.caption "Image"))
          ++ "\">"]
        ++ (match b.caption with
            | some c =>
              if c ≠ "" then
                ["<figcaption class=\"image-caption\">" ++ escapeHtml c
                  ++ "</figcaption>"]
              else []
            | none => [])
        ++ ["</figure>"])) := by
    intro src hsrc
    apply scan0_joinWith _ (scan0_of_eq _ (by decide))
    intro x hx
    simp only [List.cons_append, List.mem_cons, List.mem_append,
      List.mem_singleton, List.not_mem_nil, or_false, false_or] at hx
    rcases hx with rfl | rfl | hx | rfl
    · exact scan0_of_eq _ (by decide)
    · apply scan0_append
      apply scan0_append
      apply scan0_append
      apply scan0_append
      · exact scan0_of_eq _ (by decide)
      · exact scan0_of_no_lt src hsrc
      · exact scan0_of_eq _ (by decide)
      · exact scan0_escapeHtml _
      · exact scan0_of_eq _ (by decide)
    · split at hx
      · split at hx
        · simp only [List.mem_singleton] at hx
          subst hx
          apply scan0_append
          apply scan0_append
          · exact scan0_of_eq _ (by decide)
          · exact scan0_escapeHtml _
          · exact scan0_of_eq _ (by decide)
        · exact absurd hx (List.not_mem_nil x)
      · exact absurd hx (List.not_mem_nil x)
    · exact scan0_of_eq _ (by decide)
  split
  · exact hbuild _ (optNoLt b.image_data hdat)
  · split
    · exact hbuild _ (optNoLt b.image_path hpath)
    · exact rfl

end Tran

namespace Tran

theorem scan0_convertTable (b : TableBlock) : scan0 (convertTable b) := by
  unfold convertTable
  apply scan0_joinWith _ (scan0_of_eq _ (by decide))
  intro x hx
  rw [List.mem_append, List.mem_append, List.mem_append] at hx
  rcases hx with ((h1 | h2) | h3) | h4
  · simp only [List.mem_singleton] at h1
    subst h1
    exact scan0_of_eq _ (by decide)
  · split at h2
    · split at h2
      · simp only [List.mem_singleton] at h2
        subst h2
        apply scan0_append
        apply scan0_append
        · exact scan0_of_eq _ (by decide)
        · exact scan0_escapeHtml _
        · exact scan0_of_eq _ (by decide)
      · exact absurd h2 (List.not_mem_nil x)
    · exact absurd h2 (List.not_mem_nil x)
  · rw [List.mem_flatMap] at h3
    obtain ⟨row, _, h3⟩ := h3
    rw [List.mem_append, List.mem_append] at h3
    rcases h3 with (h5 | h6) | h7
    · simp only [List.mem_singleton] at h5
      subst h5
      exact scan0_of_eq _ (by decide)
    · rw [List.mem_map] at h6
      obtain ⟨cell, _, rfl⟩ := h6
      dsimp only
      apply scan0_append
      apply scan0_append
      apply scan0_append
      apply scan0_append
      apply scan0_append
      apply scan0_append
      · cases cell.is_header <;> exact scan0_of_eq _ (by decide)
      · have hmem : ∀ y ∈ ((if cell.colspan > 1 then
            ["colspan=\"" ++ natToString cell.colspan ++ "\""] else []) ++
            (if cell.rowspan > 1 then
            ["rowspan=\"" ++ natToString cell.rowspan ++ "\""] else [])),
            scan0 y := by
          intro y hy
          rw [List.mem_append] at hy
          rcases hy with hy | hy
          · split at hy
            · simp only [List.mem_singleton] at hy
              subst hy
              exact scan0_append _ _
                (scan0_append _ _ (scan0_of_eq _ (by decide))
                  (scan0_natToString _)) (scan0_of_eq _ (by decide))
            · exact absurd hy (List.not_mem_nil y)
          · split at hy
            · simp only [List.mem_singleton] at hy
              subst hy
              exact scan0_append _ _
                (scan0_append _ _ (scan0_of_eq _ (by decide))
                  (scan0_natToString _)) (scan0_of_eq _ (by decide))
            · exact absurd hy (List.not_mem_nil y)
        by_cases hA : ((if cell.colspan > 1 then
            ["colspan=\"" ++ natToString cell.colspan ++ "\""] else []) ++
            (if cell.rowspan > 1 then
            ["rowspan=\"" ++ natToString cell.rowspan ++ "\""] else [])) ≠ []
        · rw [if_pos hA]
          exact scan0_append _ _ (scan0_of_eq _ (by decide))
            (scan0_joinWith _ (scan0_of_eq _ (by decide)) _ hmem)
        · rw [if_neg hA]
          exact rfl
      · exact scan0_of_eq _ (by decide)
      · exact scan0_escapeHtml _
      · exact scan0_of_eq _ (by decide)
      · cases cell.is_header <;> exact scan0_of_eq _ (by decide)
      · exact scan0_of_eq _ (by decide)
    · simp only [List.mem_singleton] at h7
      subst h7
      exact scan0_of_eq _ (by decide)
  · simp only [List.mem_singleton] at h4
    subst h4
    exact scan0_of_eq _ (by decide)

theorem scan0_convertBlock (emb : Bool) (b : Block)
    (h : blockSafe b = true) : scan0 (convertBlock emb b) := by
  cases b with
  | heading hb => exact scan0_convertHeading hb
  | paragraph pb => exact scan0_convertParagraph pb
  | image ib => exact scan0_convertImage emb ib h
  | table tb => exact scan0_convertTable tb
  | list lb => exact scan0_convertList lb
  | link lb => exact scan0_convertLink lb
  | positioned_text _ => exact rfl

set_option maxRecDepth 4000 in
set_option maxHeartbeats 2000000 in
theorem scan0_getStyles : scan0 getStyles := by
  unfold getStyles
  repeat' apply scan0_append
  all_goals exact scan0_of_eq _ (by decide)

theorem scan0_convertPage (emb mp : Bool) (p : Page)
    (h : p.blocks.all blockSafe = true) : scan0 (convertPage emb mp p) := by
  unfold convertPage
  apply scan0_joinWith _ (scan0_of_eq _ (by decide))
  intro x hx
  rw [List.mem_append, List.mem_append, List.mem_append] at hx
  rcases hx with ((h1 | h2) | h3) | h4
  · simp only [List.mem_singleton] at h1
    subst h1
    apply scan0_append
    apply scan0_append
    apply scan0_append
    apply scan0_append
    · exact scan0_of_eq _ (by decide)
    · exact scan0_natToString _
    · exact scan0_of_eq _ (by decide)
    · exact scan0_getDirectionAttr _
    · exact scan0_of_eq _ (by decide)
  · split at h2
    · simp only [List.mem_singleton] at h2
      subst h2
      apply scan0_append
      apply scan0_append
      · exact scan0_of_eq _ (by decide)
      · exact scan0_escapeHtml _
      · exact scan0_of_eq _ (by decide)
    · exact absurd h2 (List.not_mem_nil x)
  · rw [List.mem_map] at h3
    obtain ⟨blk, hblk, rfl⟩ := h3
    refine scan0_convertBlock emb blk ?_
    rw [List.all_eq_true] at h
    exact h blk hblk
  · simp only [List.mem_singleton] at h4
    subst h4
    exact scan0_of_eq _ (by decide)

end Tran

namespace Tran

set_option maxRecDepth 4000 in
theorem scan0_htmlConvert (d : Document) (incl emb : Bool)
    (h : docImageSafe d = true) : scan0 (htmlConvert d incl emb) := by
  rw [docImageSafe, List.all_eq_true] at h
  unfold htmlConvert
  dsimp only
  apply scan0_joinWith _ (scan0_of_eq _ (by decide))
  intro x hx
  rw [List.mem_append, List.mem_append, List.mem_append, List.mem_append,
    List.mem_append, List.mem_append, List.mem_append, List.mem_append] at hx
  rcases hx with ((((((((h1 | h2) | h3) | h4) | h5) | h6) | h7) | h8) | h9)
  · simp only [List.mem_cons, List.mem_singleton, List.not_mem_nil,
      or_false] at h1
    rcases h1 with rfl | rfl | rfl | rfl | rfl | rfl
    · exact scan0_of_eq _ (by decide)
    · exact scan0_of_eq _ (by decide)
    · exact scan0_of_eq _ (by decide)
    · exact scan0_of_eq _ (by decide)
    · exact scan0_of_eq _ (by decide)
    · apply scan0_append
      apply scan0_append
      · exact scan0_of_eq _ (by decide)
      · exact scan0_escapeHtml _
      · exact scan0_of_eq _ (by decide)
  · split at h2
    · split at h2
      · simp only [List.mem_singleton] at h2
        subst h2
        apply scan0_append
        apply scan0_append
        · exact scan0_of_eq _ (by decide)
        · exact scan0_escapeHtml _
        · exact scan0_of_eq _ (by decide)
      · exact absurd h2 (List.not_mem_nil x)
    · exact absurd h2 (List.not_mem_nil x)
  · split at h3
    · split at h3
      · simp only [List.mem_singleton] at h3
        subst h3
        apply scan0_append
        apply scan0_append
        · exact scan0_of_eq _ (by decide)
        · exact scan0_escapeHtml _
        · exact scan0_of_eq _ (by decide)
      · exact absurd h3 (List.not_mem_nil x)
    · exact absurd h3 (List.not_mem_nil x)
  · split at h4
    · simp only [List.mem_singleton] at h4
      subst h4
      apply scan0_append
      apply scan0_append
      · exact scan0_of_eq _ (by decide)
      · exact scan0_escapeHtml _
      · exact scan0_of_eq _ (by decide)
    · exact absurd h4 (List.not_mem_nil x)
  · split at h5
    · simp only [List.mem_singleton] at h5
      subst h5
      exact scan0_getStyles
    · exact absurd h5 (List.not_mem_nil x)
  · simp only [List.mem_cons, List.mem_singleton, List.not_mem_nil,
      or_false] at h6
    rcases h6 with rfl | rfl | rfl
    · exact scan0_of_eq _ (by decide)
    · apply scan0_append
      apply scan0_append
      · exact scan0_of_eq _ (by decide)
      · exact scan0_getDirectionAttr _
      · exact scan0_of_eq _ (by decide)
    · exact scan0_of_eq _ (by decide)
  · split at h7
    · split at h7
      · simp only [List.mem_singleton] at h7
        subst h7
        apply scan0_append
        apply scan0_append
        · exact scan0_of_eq _ (by decide)
        · exact scan0_escapeHtml _
        · exact scan0_of_eq _ (by decide)
      · exact absurd h7 (List.not_mem_nil x)
    · exact absurd h7 (List.not_mem_nil x)
  · rw [List.mem_map] at h8
    obtain ⟨pg, hpg, rfl⟩ := h8
    exact scan0_convertPage emb _ pg (h pg hpg)
  · simp only [List.mem_cons, List.mem_singleton, List.not_mem_nil,
      or_false] at h9
    rcases h9 with rfl | rfl | rfl
    · exact scan0_of_eq _ (by decide)
    · exact scan0_of_eq _ (by decide)
    · exact scan0_of_eq _ (by decide)

end Tran

namespace Tran

theorem escaped_script_occurs (s : String)
    (h : "<script>".data <:+: s.data) :
    "&lt;script&gt;".data <:+: (escapeHtml s).data := by
  obtain ⟨u, v, huv⟩ := h
  refine ⟨u.flatMap escapeChar, v.flatMap escapeChar, ?_⟩
  rw [show (escapeHtml s).data = s.data.flatMap escapeChar from rfl, ← huv,
    List.flatMap_append, List.flatMap_append,
    show "<script>".data.flatMap escapeChar = "&lt;script&gt;".data from
      by decide]

theorem infix_str_left (a b : String) (p : List Char)
    (h : p <:+: a.data) : p <:+: (a ++ b).data := by
  rw [strData_append]
  exact h.trans (List.prefix_append a.data b.data).isInfix

theorem infix_str_right (a b : String) (p : List Char)
    (h : p <:+: b.data) : p <:+: (a ++ b).data := by
  rw [strData_append]
  exact h.trans (List.suffix_append a.data b.data).isInfix

theorem infix_mid_str (P Q R : String) (p : List Char)
    (h : p <:+: Q.data) : p <:+: (P ++ Q ++ R).data :=
  infix_str_left _ _ _ (infix_str_right _ _ _ h)

theorem infix_joinWith (sep : String) (p : List Char) :
    ∀ xs : List String, ∀ x ∈ xs, p <:+: x.data →
      p <:+: (joinWith sep xs).data
  | [], x, hx, _ => absurd hx (List.not_mem_nil x)
  | [_], x, hx, hp => by
    simp only [List.mem_singleton] at hx
    subst hx
    exact hp
  | q :: r :: rest, x, hx, hp => by
    rcases List.mem_cons.mp hx with rfl | hx'
    · exact infix_str_left _ _ _ (infix_str_left _ _ _ hp)
    · exact infix_str_right (q ++ sep) _ _
        (infix_joinWith sep p (r :: rest) x hx' hp)

theorem script_in_convertParagraph (b : ParagraphBlock)
    (hl : b.links = []) (ht : "<script>".data <:+: b.text.data) :
    "&lt;script&gt;".data <:+: (convertParagraph b).data := by
  unfold convertParagraph
  dsimp only
  rw [hl, if_neg (show ¬(([] : List Link) ≠ []) by simp)]
  exact infix_mid_str _ _ _ _ (escaped_script_occurs b.text ht)

theorem script_in_convertPage (emb mp : Bool) (pg : Page)
    (b : ParagraphBlock) (hb : Block.paragraph b ∈ pg.blocks)
    (hl : b.links = []) (ht : "<script>".data <:+: b.text.data) :
    "&lt;script&gt;".data <:+: (convertPage emb mp pg).data := by
  unfold convertPage
  refine infix_joinWith _ _ _ (convertBlock emb (Block.paragraph b)) ?_ ?_
  · exact List.mem_append.mpr (Or.inl (List.mem_append.mpr (Or.inr
      (List.mem_map.mpr ⟨Block.paragraph b, hb, rfl⟩))))
  · exact script_in_convertParagraph b hl ht

theorem script_in_htmlConvert (d : Document) (incl emb : Bool)
    (pg : Page) (hpg : pg ∈ d.pages) (b : ParagraphBlock)
    (hb : Block.paragraph b ∈ pg.blocks) (hl : b.links = [])
    (ht : "<script>".data <:+: b.text.data) :
    "&lt;script&gt;".data <:+: (htmlConvert d incl emb).data := by
  unfold htmlConvert
  dsimp only
  refine infix_joinWith _ _ _
    (convertPage emb (d.pages.length > 1) pg) ?_ ?_
  · exact List.mem_append.mpr (Or.inl (List.mem_append.mpr (Or.inr
      (List.mem_map.mpr ⟨pg, hpg, rfl⟩))))
  · exact script_in_convertPage emb _ pg b hb hl ht

theorem no_script_of_scan0 (s : String) (h : scan0 s) :
    ¬ ("<script>".data <:+: s.data) := by
  intro hin
  have hpat : ['<', 's', 'c'] <:+: s.data :=
    (show (['<', 's', 'c'] : List Char) <+: "<script>".data from
      by decide).isInfix.trans hin
  exact absurd ((scanSc_three_of_pat s.data hpat).symm.trans h) (by decide)

end Tran

namespace Tran

/-- C4: for a document whose image `src` values (the one field the
converter emits unescaped) contain no `<`, the rendered HTML never
contains the substring `<script>`; and when a paragraph block without
inline links has `<script>` in its text, the escaped form
`&lt;script&gt;` does appear in the output. -/
theorem c4_html_script_escaped (d : Document) (incl emb : Bool)
    (hsafe : docImageSafe d = true) :
    (¬ ("<script>".data <:+: (htmlConvert d incl emb).data)) ∧
    (∀ pg ∈ d.pages, ∀ b : ParagraphBlock,
      Block.paragraph b ∈ pg.blocks → b.links = [] →
      "<script>".data <:+: b.text.data →
      "&lt;script&gt;".data <:+: (htmlConvert d incl emb).data) := by
  refine ⟨no_script_of_scan0 _ (scan0_htmlConvert d incl emb hsafe), ?_⟩
  intro pg hpg b hb hl ht
  exact script_in_htmlConvert d incl emb pg hpg b hb hl ht

theorem c4_html_script_escaped_witness :
    docImageSafe c4doc = true ∧
    (¬ ("<script>".data <:+: (htmlConvert c4doc false false).data)) ∧
    ("&lt;script&gt;".data <:+: (htmlConvert c4doc false false).data) :=
  ⟨rfl,
   (c4_html_script_escaped c4doc false false rfl).1,
   (c4_html_script_escaped c4doc false false rfl).2 c4pg
     (List.mem_singleton.mpr rfl) c4para (List.mem_singleton.mpr rfl) rfl
     (by decide)⟩

end Tran

namespace Tran

theorem dStr_rt (s : String) : dStr (.str s) = some s := rfl

theorem dOptStr_rt (o : Option String) : dOptStr (jOptStr o) = some o := by
  cases o <;> rfl

theorem dBool_rt (b : Bool) : dBool (.bool b) = some b := rfl

theorem dRat_rt (q : Rat) : dRat (.num q) = some q := rfl

theorem dOptInt_rt (o : Option Int) : dOptInt (jOptInt o) = some o := by
  cases o with
  | none => rfl
  | some i =>
    rw [show dOptInt (jOptInt (some i))
        = if ((i : Rat)).den = 1 then some (some ((i : Rat)).num) else none
      from rfl]
    rw [if_pos (by simp [Rat.den_intCast])]
    simp [Rat.num_intCast]

theorem dOptNat_rt (o : Option Nat) : dOptNat (jOptNat o) = some o := by
  cases o with
  | none => rfl
  | some n =>
    rw [show dOptNat (jOptNat (some n))
        = if ((n : Rat)).den = 1 ∧ 0 ≤ ((n : Rat)).num then
            some (some ((n : Rat)).num.toNat) else none
      from rfl]
    rw [if_pos (by simp [Rat.den_natCast, Rat.num_natCast])]
    simp [Rat.num_natCast]

theorem dNatGe_rt (lo n : Nat) (h : lo ≤ n) :
    dNatGe lo (jnat n) = some n := by
  rw [show dNatGe lo (jnat n)
      = if ((n : Rat)).den = 1 ∧ (lo : Int) ≤ ((n : Rat)).num then
          some ((n : Rat)).num.toNat else none
    from rfl]
  rw [if_pos (by
    refine ⟨by simp [Rat.den_natCast], ?_⟩
    rw [Rat.num_natCast]
    exact_mod_cast h)]
  simp [Rat.num_natCast]

theorem dLevel_rt (n : Nat) (h1 : 1 ≤ n) (h2 : n ≤ 6) :
    dLevel (jnat n) = some n := by
  rw [show dLevel (jnat n)
      = if ((n : Rat)).den = 1 ∧ 1 ≤ ((n : Rat)).num ∧ ((n : Rat)).num ≤ 6
          then some ((n : Rat)).num.toNat else none
    from rfl]
  rw [if_pos (by
    refine ⟨by simp [Rat.den_natCast], ?_, ?_⟩ <;>
      simp [Rat.num_natCast] <;> exact_mod_cast ‹_›)]
  simp [Rat.num_natCast]

theorem dConf_rt (q : Rat) (h1 : 0 ≤ q) (h2 : q ≤ 1) :
    dConf (.num q) = some q := by
  rw [show dConf (.num q) = if 0 ≤ q ∧ q ≤ 1 then some q else none
    from rfl]
  rw [if_pos ⟨h1, h2⟩]

theorem dDir_rt (d : TextDirection) : dDir (jdir d) = some d := by
  cases d <;> rfl

theorem optTrav_rt {α β : Type} (f : JVal → Option β) (g : α → JVal)
    (h : α → β) (xs : List α) (hx : ∀ x ∈ xs, f (g x) = some (h x)) :
    optTrav f (xs.map g) = some (xs.map h) := by
  induction xs with
  | nil => rfl
  | cons a rest ih =>
    rw [List.map_cons, List.map_cons]
    show (match f (g a), optTrav f (rest.map g) with
      | some y, some ys => some (y :: ys)
      | _, _ => none) = _
    rw [hx a (by simp), ih (fun x hxm => hx x (by simp [hxm]))]

theorem dStrList_rt (xs : List String) :
    dStrList (.arr (xs.map JVal.str)) = some xs := by
  show optTrav dStr (xs.map JVal.str) = some xs
  have := optTrav_rt dStr JVal.str id xs (fun x _ => rfl)
  simpa using this

theorem fromJsonLink_rt (l : Link) : fromJsonLink (toJsonLink l) = some l := by
  simp [toJsonLink, fromJsonLink, optField, reqField, jGet,
    dStr_rt, dOptNat_rt]

end Tran

namespace Tran

theorem dLinkList_rt (ls : List Link) :
    dLinkList (.arr (ls.map toJsonLink)) = some ls := by
  show optTrav fromJsonLink (ls.map toJsonLink) = some ls
  have := optTrav_rt fromJsonLink toJsonLink id ls
    (fun x _ => fromJsonLink_rt x)
  simpa using this

theorem fromJsonBBox_rt (b : BoundingBox) :
    fromJsonBBox (toJsonBBox b) = some b := by
  simp [toJsonBBox, fromJsonBBox, optField, reqField, jGet, dRat_rt]

theorem fromJsonTextStyle_rt (t : TextStyle) :
    fromJsonTextStyle (toJsonTextStyle t) = some t := by
  simp [toJsonTextStyle, fromJsonTextStyle, optField, reqField, jGet,
    dOptStr_rt, dRat_rt, dStr_rt, dBool_rt]

theorem fromJsonMetadata_rt (m : Metadata) :
    fromJsonMetadata (toJsonMetadata m) = some m := by
  simp [toJsonMetadata, fromJsonMetadata, optField, reqField, jGet,
    dOptStr_rt, dStrList_rt, dOptInt_rt]

theorem fromJsonTableCell_rt (c : TableCell) (h1 : 1 ≤ c.colspan)
    (h2 : 1 ≤ c.rowspan) : fromJsonTableCell (toJsonTableCell c) = some c := by
  simp [toJsonTableCell, fromJsonTableCell, optField, reqField, jGet,
    dStr_rt, dBool_rt, dNatGe_rt 1 c.colspan h1, dNatGe_rt 1 c.rowspan h2,
    dLinkList_rt]

theorem dCellList_rt (cells : List TableCell)
    (h : ∀ c ∈ cells, 1 ≤ c.colspan ∧ 1 ≤ c.rowspan) :
    dCellList (.arr (cells.map toJsonTableCell)) = some cells := by
  show optTrav fromJsonTableCell (cells.map toJsonTableCell) = some cells
  have := optTrav_rt fromJsonTableCell toJsonTableCell id cells
    (fun c hc => fromJsonTableCell_rt c (h c hc).1 (h c hc).2)
  simpa using this

theorem fromJsonTableRow_rt (r : TableRow)
    (h : ∀ c ∈ r.cells, 1 ≤ c.colspan ∧ 1 ≤ c.rowspan) :
    fromJsonTableRow (toJsonTableRow r) = some r := by
  simp [toJsonTableRow, fromJsonTableRow, optField, reqField, jGet,
    dBool_rt, dCellList_rt r.cells h]

theorem dRowList_rt (rows : List TableRow)
    (h : ∀ r ∈ rows, ∀ c ∈ r.cells, 1 ≤ c.colspan ∧ 1 ≤ c.rowspan) :
    dRowList (.arr (rows.map toJsonTableRow)) = some rows := by
  show optTrav fromJsonTableRow (rows.map toJsonTableRow) = some rows
  have := optTrav_rt fromJsonTableRow toJsonTableRow id rows
    (fun r hr => fromJsonTableRow_rt r (h r hr))
  simpa using this

theorem fromJsonHeading_rt (b : HeadingBlock) (h1 : 1 ≤ b.level)
    (h2 : b.level ≤ 6) : fromJsonHeading (toJsonHeading b) = some b := by
  simp [toJsonHeading, fromJsonHeading, optField, reqField, jGet,
    dDir_rt, dOptStr_rt, dLevel_rt b.level h1 h2, dStr_rt, dLinkList_rt]

theorem fromJsonParagraph_rt (b : ParagraphBlock) :
    fromJsonParagraph (toJsonParagraph b) = some b := by
  simp [toJsonParagraph, fromJsonParagraph, optField, reqField, jGet,
    dDir_rt, dOptStr_rt, dStr_rt, dLinkList_rt, dBool_rt]

theorem fromJsonImage_rt (b : ImageBlock) :
    fromJsonImage (toJsonImage b) = some b := by
  simp [toJsonImage, fromJsonImage, optField, reqField, jGet,
    dDir_rt, dOptStr_rt, dStr_rt, dOptInt_rt]

theorem fromJsonTable_rt (b : TableBlock)
    (h : ∀ r ∈ b.rows, ∀ c ∈ r.cells, 1 ≤ c.colspan ∧ 1 ≤ c.rowspan) :
    fromJsonTable (toJsonTable b) = some b := by
  simp [toJsonTable, fromJsonTable, optField, reqField, jGet,
    dDir_rt, dOptStr_rt, dRowList_rt b.rows h, dBool_rt,
    dNatGe_rt 0 b.column_count (Nat.zero_le _),
    dNatGe_rt 0 b.row_count (Nat.zero_le _)]

theorem fromJsonListBlock_rt (b : ListBlock) :
    fromJsonListBlock (toJsonListBlock b) = some b := by
  simp [toJsonListBlock, fromJsonListBlock, optField, reqField, jGet,
    dDir_rt, dOptStr_rt, dStrList_rt, dBool_rt, dLinkList_rt]

theorem fromJsonLinkBlock_rt (b : LinkBlock) :
    fromJsonLinkBlock (toJsonLinkBlock b) = some b := by
  simp [toJsonLinkBlock, fromJsonLinkBlock, optField, reqField, jGet,
    dDir_rt, dOptStr_rt, dStr_rt]

theorem fromJsonPositioned_rt (b : PositionedTextBlock)
    (h1 : 0 ≤ b.confidence) (h2 : b.confidence ≤ 1) :
    fromJsonPositioned (toJsonPositioned b) = some b := by
  simp [toJsonPositioned, fromJsonPositioned, optField, reqField, jGet,
    dDir_rt, dOptStr_rt, dStr_rt, fromJsonBBox_rt, fromJsonTextStyle_rt,
    dConf_rt b.confidence h1 h2]

theorem fromJsonBlock_rt (b : Block) (h : validBlock b = true) :
    fromJsonBlock (toJsonBlock b) = some b := by
  cases b with
  | heading hb =>
    rw [validBlock, Bool.and_eq_true, decide_eq_true_eq,
      decide_eq_true_eq] at h
    rw [show toJsonBlock (.heading hb) = toJsonHeading hb from rfl,
      fromJsonBlock, show jType (toJsonHeading hb) = some "heading" from rfl]
    simp [fromJsonHeading_rt hb h.1 h.2]
  | paragraph pb =>
    rw [show toJsonBlock (.paragraph pb) = toJsonParagraph pb from rfl,
      fromJsonBlock,
      show jType (toJsonParagraph pb) = some "paragraph" from rfl]
    simp [fromJsonParagraph_rt pb]
  | image ib =>
    rw [show toJsonBlock (.image ib) = toJsonImage ib from rfl,
      fromJsonBlock, show jType (toJsonImage ib) = some "image" from rfl]
    simp [fromJsonImage_rt ib]
  | table tb =>
    rw [validBlock, List.all_eq_true] at h
    have h' : ∀ r ∈ tb.rows, ∀ c ∈ r.cells,
        1 ≤ c.colspan ∧ 1 ≤ c.rowspan := by
      intro r hr c hc
      have := h r hr
      rw [List.all_eq_true] at this
      have := this c hc
      rw [Bool.and_eq_true, decide_eq_true_eq, decide_eq_true_eq] at this
      exact this
    rw [show toJsonBlock (.table tb) = toJsonTable tb from rfl,
      fromJsonBlock, show jType (toJsonTable tb) = some "table" from rfl]
    simp [fromJsonTable_rt tb h']
  | list lb =>
    rw [show toJsonBlock (.list lb) = toJsonListBlock lb from rfl,
      fromJsonBlock, show jType (toJsonListBlock lb) = some "list" from rfl]
    simp [fromJsonListBlock_rt lb]
  | link kb =>
    rw [show toJsonBlock (.link kb) = toJsonLinkBlock kb from rfl,
      fromJsonBlock,
      show jType (toJsonLinkBlock kb) = some "link" from rfl]
    simp [fromJsonLinkBlock_rt kb]
  | positioned_text pt =>
    rw [validBlock, Bool.and_eq_true, decide_eq_true_eq,
      decide_eq_true_eq] at h
    rw [show toJsonBlock (.positioned_text pt) = toJsonPositioned pt
        from rfl,
      fromJsonBlock,
      show jType (toJsonPositioned pt) = some "positioned_text" from rfl]
    simp [fromJsonPositioned_rt pt h.1 h.2]

theorem dBlockList_rt (blocks : List Block)
    (h : ∀ b ∈ blocks, validBlock b = true) :
    dBlockList (.arr (blocks.map toJsonBlock)) = some blocks := by
  show optTrav fromJsonBlock (blocks.map toJsonBlock) = some blocks
  have := optTrav_rt fromJsonBlock toJsonBlock id blocks
    (fun b hb => fromJsonBlock_rt b (h b hb))
  simpa using this

theorem fromJsonPage_rt (p : Page) (h : validPage p = true) :
    fromJsonPage (toJsonPage p) = some p := by
  rw [validPage, Bool.and_eq_true, decide_eq_true_eq,
    List.all_eq_true] at h
  simp [toJsonPage, fromJsonPage, optField, reqField, jGet,
    dNatGe_rt 1 p.page_number h.1, dOptStr_rt,
    dBlockList_rt p.blocks h.2, dDir_rt]

theorem dPageList_rt (pages : List Page)
    (h : ∀ p ∈ pages, validPage p = true) :
    dPageList (.arr (pages.map toJsonPage)) = some pages := by
  show optTrav fromJsonPage (pages.map toJsonPage) = some pages
  have := optTrav_rt fromJsonPage toJsonPage id pages
    (fun p hp => fromJsonPage_rt p (h p hp))
  simpa using this

end Tran

namespace Tran

/-- C3: on every document satisfying the model's field constraints,
deserialisation inverts serialisation field-by-field. -/
theorem c3_json_round_trip (d : Document) (h : validDoc d = true) :
    fromJsonDocument (toJsonDocument d) = some d := by
  rw [validDoc, List.all_eq_true] at h
  simp [toJsonDocument, fromJsonDocument, optField, reqField, jGet,
    dOptStr_rt, fromJsonMetadata_rt, dPageList_rt d.pages h, dDir_rt]

theorem c3_json_round_trip_witness :
    validDoc c3doc = true ∧
    fromJsonDocument (toJsonDocument c3doc) = some c3doc :=
  ⟨by decide, c3_json_round_trip c3doc (by decide)⟩

end Tran
